import Mathlib

/-!
Verification development for the `merge_polylines` subsystem of the
`pyvista_utils` repository (files `src/vistools/vtk/merge_polylines.py` and
`src/vtk_utils/geometric_search.py`), shallowly embedded in Lean.

Modelling conventions:

* VTK grids are embedded as a list of cells (`Cell`), each with a kind tag and
  an ordered connectivity list of point ids, plus the number of points.
  `GetPointCells` returns the ids of the cells whose connectivity contains a
  point, in ascending cell id order (VTK builds cell links by iterating the
  cells in order).
* Python exceptions are modelled with `Except MergeError`; list indexing that
  would raise `IndexError` is modelled by the `indexOutOfRange` error.  The
  unbounded `while` loops of the source are modelled with an explicit `fuel`
  argument and a distinguished `outOfFuel` outcome; theorems show that
  `number of cells + 1` fuel is always enough, which is the termination
  argument for the source's loops.
* The mutable `_MergePoint` objects of the source (whose object identity is
  used for memoisation and for closing loops) are modelled with an explicit
  arena: a `Store` of merge points addressed by integer handles, exactly the
  arena-plus-index reimplementation the spec's design notes prescribe.
  A chain holds handles into the store.
* The floating-point smoothness test `cos(smooth_angle) > dot(t1, t2)` acts on
  normalised tangent vectors.  A tangent is fully determined by the ordered
  pair of point ids it is computed from (from the second-to-boundary point to
  the boundary point), so the traversal is parametrised by a boolean decision
  function `SmoothFn` on such `TangentRef` pairs; the real-valued semantics of
  the test (`smooth_angle_check`, `tangent_of_ref`) is stated separately over
  `ℝ`.  Traversal theorems quantify over every decision function, hence in
  particular over the one the floating-point code computes.
* The spatial pair query (`KDTree.query_pairs`) is an external collaborator in
  the spec; the list of close point pairs is therefore an input of the model.
* Each chain additionally records the list of cell ids consumed into it (the
  spec's `chain.cells`); this instrumentation field is written exactly when
  the source clears the corresponding cell tracker entry.
-/

namespace PyVistaUtils

/-- Error outcomes of the merge-polylines subsystem.  The first four model the
exceptions the Python source can raise; `indexOutOfRange` models Python
`IndexError` on list indexing; `outOfFuel` is the artificial outcome of the
fuel-bounded loops.  The unsupported-cell-type `ValueError` formats only the
cell's class and VTK type id (`type(cell)` and `grid.GetCellType(i)`), not the
cell index, so its payload here is the kind alone. -/
inductive MergeError where
  | unsupportedCellType (kind : Nat)
  | ambiguousCluster
  | pointNotInConnectivity
  | orientationMismatch
  | indexOutOfRange
  | outOfFuel
deriving DecidableEq, Repr

/-- VTK cell type tags: 3 is `vtkLine`, 4 is `vtkPolyLine`; any other value is
some other (unsupported) cell type, e.g. 5 is `vtkTriangle`. -/
abbrev CellKind := Nat

/-- A cell of the input grid: its VTK type tag and its ordered connectivity
list of point ids. -/
structure Cell where
  kind : CellKind
  pointIds : List Nat
deriving DecidableEq, Repr

instance : Inhabited Cell := ⟨⟨3, []⟩⟩

/-- The connectivity part of a VTK unstructured grid. -/
structure Grid where
  nPoints : Nat
  cells : List Cell
deriving DecidableEq, Repr

/-- Connectivity list of cell `c` (`vtk_id_to_list(grid.GetCell(c).GetPointIds())`). -/
def cell_point_ids (g : Grid) (c : Nat) : List Nat :=
  (g.cells.getD c default).pointIds

/-- Ids of the cells incident to point `p` (`grid.GetPointCells`), in ascending
cell id order. -/
def point_cells (g : Grid) (p : Nat) : List Nat :=
  (List.range g.cells.length).filter (fun c => p ∈ (g.cells.getD c default).pointIds)

/-- `_MergePoint`: one or two source point ids and the lazily assigned output
point id. -/
structure MergePoint where
  index_1 : Nat
  index_2 : Option Nat := none
  point_id : Option Nat := none
deriving DecidableEq, Repr

instance : Inhabited MergePoint := ⟨⟨0, none, none⟩⟩

/-- Arena of `_MergePoint` objects; a chain refers to them by handle (list
index), which plays the role of Python object identity. -/
abbrev Store := List MergePoint

/-- Allocate fresh merge points for the given source point ids; returns the
grown store and the new handles. -/
def alloc_merge_points (s : Store) (ids : List Nat) : Store × List Nat :=
  (s ++ ids.map (fun i => ⟨i, none, none⟩), (List.range ids.length).map (fun k => k + s.length))

/-- Mutate `index_2` of the merge point behind handle `h` (a no-op on a dangling
handle, which never occurs in the pipeline). -/
def set_index_2 (s : Store) (h : Nat) (v : Nat) : Store :=
  match s.get? h with
  | some mp => s.set h { mp with index_2 := some v }
  | none => s

/-- `_MergedPolyline`: the chain of merge-point handles, the id of the most
recently appended source cell, and (instrumentation) the list of source cell
ids consumed into this chain, in consumption order. -/
structure MergedPolyline where
  pts : List Nat
  last_cell_id : Option Nat
  cells : List Nat
deriving DecidableEq, Repr

/-- The `index_1` values along a chain, i.e. the connectivity list
`[merge_point.index_1 for merge_point in merged_polyline.connected_cell_points]`. -/
def chain_connectivity (s : Store) (pts : List Nat) : List Nat :=
  pts.map (fun h => (s.getD h default).index_1)

/-- An outward tangent is determined by the ordered pair `(a, b)` of point ids
it is evaluated from: it is the normalised vector from point `a` (the
second-to-boundary point) to point `b` (the boundary point). -/
abbrev TangentRef := Nat × Nat

/-- Decision function for the smoothness test on two tangent references,
abstracting the floating-point comparison
`cos(smooth_angle) > dot(tangent_1, tangent_2)` of the source. -/
abbrev SmoothFn := TangentRef → TangentRef → Bool

/-- `_get_indices_tangent`, reference part: which two points the tangent at
`point_id` of the polygon `conn` is computed from.  Mirrors the source: if the
last entry matches, indices `[-2, -1]` are used; else if the first entry
matches, indices `[1, 0]`; otherwise the `ValueError` is raised.  Python
`IndexError`s on too-short lists become `indexOutOfRange`. -/
def get_indices_tangent_ref (conn : List Nat) (point_id : Nat) : Except MergeError TangentRef :=
  if conn.isEmpty then .error .indexOutOfRange
  else if conn.getLast? = some point_id then
    if 2 ≤ conn.length then .ok (conn.getD (conn.length - 2) 0, point_id)
    else .error .indexOutOfRange
  else if conn.head? = some point_id then
    if 2 ≤ conn.length then .ok (conn.getD 1 0, point_id)
    else .error .indexOutOfRange
  else .error .pointNotInConnectivity

/-- `_MergePolylineData` without the cell tracker (which is threaded explicitly)
and with the smoothness decision function passed separately. -/
structure MergePolylineData where
  partner_list : List Int
  partner_grouped : List (List Nat)
deriving DecidableEq, Repr

/-- `_PossibleCell` after `set_cell_tangent` ran: candidate cell id, connecting
point id, and its outward tangent reference. -/
structure PossibleCell where
  cell_id : Nat
  point_id : Nat
  tangent : TangentRef
deriving DecidableEq, Repr

/-- Candidate next cells at boundary point `connected_point_id`: the cells
incident to it except the most recently appended cell, followed by every cell
incident to any other point of its partner cluster (lines 182-201 of
`merge_polylines.py`).  Each candidate is a (cell id, connecting point id)
pair. -/
def possible_next_cells (g : Grid) (d : MergePolylineData) (last_cell_id : Option Nat)
    (connected_point_id : Nat) : List (Nat × Nat) :=
  let direct := ((point_cells g connected_point_id).filter
      (fun c => some c != last_cell_id)).map (fun c => (c, connected_point_id))
  let partner_index := d.partner_list.getD connected_point_id (-1)
  let partners :=
    if partner_index = -1 then []
    else ((d.partner_grouped.getD partner_index.toNat []).filter
        (fun p => p != connected_point_id)).flatMap
      (fun p => (point_cells g p).map (fun c => (c, p)))
  direct ++ partners

/-- Run `set_cell_tangent` on every candidate, left to right; the first failure
aborts (as the first raised exception would). -/
def set_tangents (g : Grid) : List (Nat × Nat) → Except MergeError (List PossibleCell)
  | [] => .ok []
  | (c, p) :: rest =>
    match get_indices_tangent_ref (cell_point_ids g c) p with
    | .error e => .error e
    | .ok t =>
      match set_tangents g rest with
      | .error e => .error e
      | .ok l => .ok (⟨c, p, t⟩ :: l)

abbrev Tracker := List (Option Nat)

/-- The `extend = True` branch of `_add_next_cell` (lines 281-290): possibly
record a two-id merge pairing on the chain's last merge point, append the new
handles minus the junction one, mark the cell consumed, and report the new
boundary point id. -/
def extend_chain (tracker : Tracker) (s1 : Store) (mp : MergedPolyline) (cid : Nat)
    (ordHs ordIds : List Nat) : Tracker × Store × MergedPolyline × Nat :=
  let boundary_handle := mp.pts.getLastD 0
  let s2 :=
    if (s1.getD boundary_handle default).index_1 = ordIds.headD 0 then s1
    else set_index_2 s1 boundary_handle (ordIds.headD 0)
  (tracker.set cid none, s2,
    ⟨mp.pts ++ ordHs.tail, some cid, mp.cells ++ [cid]⟩, ordIds.getLastD 0)

/-- The `extend = False` branch of `_add_next_cell` (lines 291-302). -/
def prepend_chain (tracker : Tracker) (s1 : Store) (mp : MergedPolyline) (cid : Nat)
    (ordHs ordIds : List Nat) : Tracker × Store × MergedPolyline × Nat :=
  let boundary_handle := mp.pts.headD 0
  let s2 :=
    if (s1.getD boundary_handle default).index_1 = ordIds.getLastD 0 then s1
    else set_index_2 s1 boundary_handle (ordIds.getLastD 0)
  (tracker.set cid none, s2,
    ⟨ordHs.dropLast ++ mp.pts, some cid, mp.cells ++ [cid]⟩, ordIds.headD 0)

/-- Orientation matching and chain update of `_add_next_cell` (lines 246-306):
allocate merge points for the chosen cell `cid` with connecting endpoint `ncp`,
match its endpoints against the chain's boundary ids (four cases, any other
configuration is the fatal "This should not happen"), then extend or prepend. -/
def append_new_cell (g : Grid) (tracker : Tracker) (s : Store) (mp : MergedPolyline)
    (connected_point_id cid ncp : Nat) :
    Except MergeError (Tracker × Store × MergedPolyline × Nat) :=
  let newIds := cell_point_ids g cid
  let alloc := alloc_merge_points s newIds
  let chain := chain_connectivity s mp.pts
  if newIds.head? = some ncp ∧ some connected_point_id = chain.getLast? then
    .ok (extend_chain tracker alloc.1 mp cid alloc.2 newIds)
  else if newIds.getLast? = some ncp ∧ some connected_point_id = chain.getLast? then
    .ok (extend_chain tracker alloc.1 mp cid alloc.2.reverse newIds.reverse)
  else if newIds.head? = some ncp ∧ some connected_point_id = chain.head? then
    .ok (prepend_chain tracker alloc.1 mp cid alloc.2.reverse newIds.reverse)
  else if newIds.getLast? = some ncp ∧ some connected_point_id = chain.head? then
    .ok (prepend_chain tracker alloc.1 mp cid alloc.2 newIds)
  else .error .orientationMismatch

/-- `_add_next_cell`: one growth step at boundary point `connected_point_id`.
Returns `none` when growth at this end stops (no unique smooth continuation,
continuation already consumed, or ambiguous bifurcation), or the updated
tracker, store, chain and next boundary point id. -/
def add_next_cell (g : Grid) (d : MergePolylineData) (sc : SmoothFn) (tracker : Tracker)
    (s : Store) (mp : MergedPolyline) (connected_point_id : Nat) :
    Except MergeError (Option (Tracker × Store × MergedPolyline × Nat)) :=
  let possible := possible_next_cells g d mp.last_cell_id connected_point_id
  match get_indices_tangent_ref (chain_connectivity s mp.pts) connected_point_id with
  | .error e => .error e
  | .ok tangent =>
    match set_tangents g possible with
    | .error e => .error e
    | .ok withT =>
      match withT.filter (fun pc => sc tangent pc.tangent) with
      | [new_cell] =>
        match tracker.getD new_cell.cell_id none with
        | none => .ok none
        | some _ =>
          if withT.any (fun pc => pc.cell_id != new_cell.cell_id && sc new_cell.tangent pc.tangent)
          then .ok none
          else
            match append_new_cell g tracker s mp connected_point_id new_cell.cell_id
                new_cell.point_id with
            | .error e => .error e
            | .ok r => .ok (some r)
      | _ => .ok none

/-- The inner `while next_point_id is not None` loop of
`_find_next_connected_polyline`, fuel-bounded. -/
def grow_loop (g : Grid) (d : MergePolylineData) (sc : SmoothFn) :
    Nat → Tracker → Store → MergedPolyline → Option Nat →
    Except MergeError (Tracker × Store × MergedPolyline)
  | _, tracker, s, mp, none => .ok (tracker, s, mp)
  | 0, _, _, _, some _ => .error .outOfFuel
  | fuel + 1, tracker, s, mp, some p =>
    match add_next_cell g d sc tracker s mp p with
    | .error e => .error e
    | .ok none => .ok (tracker, s, mp)
    | .ok (some (t2, s2, mp2, p2)) => grow_loop g d sc fuel t2 s2 mp2 (some p2)

/-- `_find_next_connected_polyline`: seed a chain with the first cell still in
the tracker (returning `none` when the tracker is exhausted), then grow it from
its original start point and from its original end point. -/
def find_next_connected_polyline (g : Grid) (d : MergePolylineData) (sc : SmoothFn)
    (fuel : Nat) (tracker : Tracker) (s : Store) :
    Except MergeError (Option (Tracker × Store × MergedPolyline)) :=
  match tracker.findSome? id with
  | none => .ok none
  | some next_cell_id =>
    let tracker1 := tracker.set next_cell_id none
    let conn := cell_point_ids g next_cell_id
    match conn.head?, conn.getLast? with
    | some start_id, some end_id =>
      let alloc := alloc_merge_points s conn
      let mp0 : MergedPolyline := ⟨alloc.2, some next_cell_id, [next_cell_id]⟩
      match grow_loop g d sc fuel tracker1 alloc.1 mp0 (some start_id) with
      | .error e => .error e
      | .ok (t2, s2, mp2) =>
        match grow_loop g d sc fuel t2 s2 { mp2 with last_cell_id := some next_cell_id }
            (some end_id) with
        | .error e => .error e
        | .ok (t3, s3, mp3) => .ok (some (t3, s3, mp3))
    | _, _ => .error .indexOutOfRange

/-- `_MergedPolyline.check_closed`: if the first and last merge points have the
same primary id, alias the last entry to the first handle; else if the first
point's primary id has a partner cluster containing the last point's primary
id, record the two-id pairing on the first merge point and alias the last entry
to it; otherwise leave the chain unchanged. -/
def check_closed (d : MergePolylineData) (s : Store) (mp : MergedPolyline) :
    Store × MergedPolyline :=
  match mp.pts.head?, mp.pts.getLast? with
  | some h0, some hl =>
    let first := s.getD h0 default
    let last := s.getD hl default
    if first.index_1 = last.index_1 then
      (s, { mp with pts := mp.pts.dropLast ++ [h0] })
    else
      let partner_id := d.partner_list.getD first.index_1 (-1)
      if partner_id = -1 then (s, mp)
      else if last.index_1 ∈ d.partner_grouped.getD partner_id.toNat [] then
        (set_index_2 s h0 last.index_1, { mp with pts := mp.pts.dropLast ++ [h0] })
      else (s, mp)
  | _, _ => (s, mp)

/-- The outer `while True` discovery loop of `merge_polylines` (lines 478-483),
fuel-bounded: discover a chain, run `check_closed` on it, collect it. -/
def merge_loop (g : Grid) (d : MergePolylineData) (sc : SmoothFn) :
    Nat → Tracker → Store → List MergedPolyline →
    Except MergeError (Store × List MergedPolyline)
  | 0, _, _, _ => .error .outOfFuel
  | fuel + 1, tracker, s, acc =>
    match find_next_connected_polyline g d sc fuel tracker s with
    | .error e => .error e
    | .ok none => .ok (s, acc)
    | .ok (some (t2, s2, mp)) =>
      let r := check_closed d s2 mp
      merge_loop g d sc fuel t2 r.1 (acc ++ [r.2])

/-- Precondition check of `merge_polylines` (lines 430-439): scan the cells in
order and fail on the first one that is neither a line (VTK type 3) nor a
polyline (VTK type 4), naming its actual kind (the raised `ValueError` carries
only the cell class and VTK type id, not the cell index). -/
def check_cell_types : List Cell → Except MergeError Unit
  | [] => .ok ()
  | c :: rest =>
    if c.kind = 3 ∨ c.kind = 4 then check_cell_types rest
    else .error (.unsupportedCellType c.kind)

/-- Stable insertion sort of the close pairs by their first component,
modelling `pairs[pairs[:, 0].argsort()]` (the pair query returns pairs with the
lower point id first). -/
def insert_pair_sorted (p : Nat × Nat) : List (Nat × Nat) → List (Nat × Nat)
  | [] => [p]
  | q :: qs => if p.1 ≤ q.1 then p :: q :: qs else q :: insert_pair_sorted p qs

/-- Sort the pair list by the first component. -/
def sort_pairs_by_first (l : List (Nat × Nat)) : List (Nat × Nat) :=
  l.foldr insert_pair_sorted []

/-- The pair-processing loop of `pairs_to_partner_list`
(`geometric_search.py`, lines 44-62). -/
def pairs_to_partner_list_loop :
    List (Nat × Nat) → List Int → Nat → Except MergeError (List Int × Nat)
  | [], pl, n => .ok (pl, n)
  | (a, b) :: rest, pl, n =>
    let pa := pl.getD a (-1)
    let pb := pl.getD b (-1)
    if pa = -1 ∧ pb = -1 then
      pairs_to_partner_list_loop rest ((pl.set a (n : Int)).set b (n : Int)) (n + 1)
    else if pa = -1 then pairs_to_partner_list_loop rest (pl.set a pb) n
    else if pb = -1 then pairs_to_partner_list_loop rest (pl.set b pa) n
    else if ¬ pa = pb then .error .ambiguousCluster
    else pairs_to_partner_list_loop rest pl n

/-- `pairs_to_partner_list`: convert the close pairs into a partner index list
(entry `-1` means "no cluster") and the number of allocated clusters. -/
def pairs_to_partner_list (pairs : List (Nat × Nat)) (n_points : Nat) :
    Except MergeError (List Int × Nat) :=
  pairs_to_partner_list_loop (sort_pairs_by_first pairs) (List.replicate n_points (-1)) 0

/-- `point_partners_to_partner_indices`: for each cluster id, the ascending
list of its member point ids. -/
def point_partners_to_partner_indices (point_partners : List Int) (n_partners : Nat) :
    List (List Nat) :=
  (List.range n_partners).map
    (fun c : Nat => (List.range point_partners.length).filter
      (fun i => point_partners.getD i (-1) == Int.ofNat c))

/-- `merge_polylines`, up to (and including) chain discovery and closure: cell
kind precondition, partner index construction from the externally supplied
close pairs, then the discovery loop.  The subsequent point/cell emission into
the output grid cannot fail and does not touch the consumption bookkeeping. -/
def merge_polylines (g : Grid) (pairs : List (Nat × Nat)) (sc : SmoothFn) (fuel : Nat) :
    Except MergeError (Store × List MergedPolyline) :=
  match check_cell_types g.cells with
  | .error e => .error e
  | .ok _ =>
    match pairs_to_partner_list pairs g.nPoints with
    | .error e => .error e
    | .ok (pl, np) =>
      let d : MergePolylineData := ⟨pl, point_partners_to_partner_indices pl np⟩
      merge_loop g d sc fuel ((List.range g.cells.length).map some) [] []

/-! ### Point merge resolution (`_insert_point_by_index`)

The resolver only performs exact arithmetic on coordinates and data tuples
(copy, or `0.5 * (x + y)`), so it is embedded generically over a field; the
floating-point source instantiates it at the reals, witnesses at the
rationals. -/

/-- Point coordinates and point-data arrays of a grid, over a scalar field `F`:
`points` maps point id to a 3-D coordinate, `dataArrays` maps array index and
point id to the data tuple. -/
structure DataGrid (F : Type) where
  points : List (F × F × F)
  dataArrays : List (List (List F))
deriving DecidableEq, Repr

/-- Midpoint of two coordinates, `0.5 * (coords1 + coords2)`. -/
def mid_coords {F : Type} [Field F] (c1 c2 : F × F × F) : F × F × F :=
  ((1 / 2 : F) * (c1.1 + c2.1), (1 / 2 : F) * (c1.2.1 + c2.2.1), (1 / 2 : F) * (c1.2.2 + c2.2.2))

/-- Elementwise mean of two data tuples, `0.5 * (data1 + data2)`. -/
def mid_tuple {F : Type} [Field F] (t1 t2 : List F) : List F :=
  List.zipWith (fun a b => (1 / 2 : F) * (a + b)) t1 t2

/-- `_insert_point_by_index`: resolve a merge point into the target grid.
Returns the (possibly extended) target grid, the (possibly memoised) merge
point, and the output point id. -/
def insert_point_by_index {F : Type} [Field F] (src : DataGrid F) (tgt : DataGrid F)
    (mp : MergePoint) : DataGrid F × MergePoint × Nat :=
  match mp.point_id with
  | some pid => (tgt, mp, pid)
  | none =>
    let new_point_index := tgt.points.length
    let coords1 := src.points.getD mp.index_1 (0, 0, 0)
    let new_coords :=
      match mp.index_2 with
      | none => coords1
      | some i2 => mid_coords coords1 (src.points.getD i2 (0, 0, 0))
    let new_data := (List.range src.dataArrays.length).map (fun ai =>
      let sa := src.dataArrays.getD ai []
      let ta := tgt.dataArrays.getD ai []
      let data_tuple :=
        match mp.index_2 with
        | none => sa.getD mp.index_1 []
        | some i2 => mid_tuple (sa.getD mp.index_1 []) (sa.getD i2 [])
      ta ++ [data_tuple])
    (⟨tgt.points ++ [new_coords], new_data⟩, { mp with point_id := some new_point_index },
      new_point_index)

/-! ### Real-valued semantics of the smoothness test -/

/-- 3-D real vector. -/
abbrev Vec3 := ℝ × ℝ × ℝ

/-- Euclidean dot product on `Vec3` (`np.dot` on 3-vectors). -/
def dot3 (a b : Vec3) : ℝ :=
  a.1 * b.1 + a.2.1 * b.2.1 + a.2.2 * b.2.2

/-- `_smooth_angle_check`: the candidate is accepted when
`cos(smooth_angle) > dot(tangent_1, tangent_2)` (strictly). -/
def smooth_angle_check (tangent_1 tangent_2 : Vec3) (smooth_angle : ℝ) : Prop :=
  Real.cos smooth_angle > dot3 tangent_1 tangent_2

/-- Value semantics of a tangent reference `(a, b)` over point coordinates
`pts`: the vector from point `a` to point `b`, divided by its Euclidean norm
(lines 163-168 of the source). -/
def tangent_of_ref (pts : Nat → Vec3) (r : TangentRef) (t : Vec3) : Prop :=
  t = (Real.sqrt (dot3 (pts r.2 - pts r.1) (pts r.2 - pts r.1)))⁻¹ • (pts r.2 - pts r.1)

/-- `_get_indices_tangent` with its value semantics: the tangent of the polygon
`conn` at `point_id` as the source computes it. -/
def get_indices_tangent (pts : Nat → Vec3) (conn : List Nat) (point_id : Nat) (t : Vec3) :
    Prop :=
  ∃ a b, get_indices_tangent_ref conn point_id = .ok (a, b) ∧ tangent_of_ref pts (a, b) t

/-- Modelled from the spec's words ("the unit vector from the second-to-boundary
point to the boundary point, computed from the endpoint whose id matches the
connecting point"): the outward tangent the spec describes, for comparison with
the source's `get_indices_tangent`. -/
def spec_outward_tangent (pts : Nat → Vec3) (conn : List Nat) (point_id : Nat) (t : Vec3) :
    Prop :=
  (conn.getLast? = some point_id ∧ 2 ≤ conn.length ∧
    tangent_of_ref pts (conn.getD (conn.length - 2) 0, point_id) t)
  ∨ (¬ conn.getLast? = some point_id ∧ conn.head? = some point_id ∧ 2 ≤ conn.length ∧
    tangent_of_ref pts (conn.getD 1 0, point_id) t)


/-- Decidable equality of `Except` results, used to evaluate concrete runs. -/
instance {e a : Type} [DecidableEq e] [DecidableEq a] : DecidableEq (Except e a) :=
  fun x y =>
    match x, y with
    | .ok v, .ok w => decidable_of_iff (v = w) ⟨fun h => by rw [h], fun h => by injection h⟩
    | .ok _, .error _ => isFalse (fun h => Except.noConfusion h)
    | .error _, .ok _ => isFalse (fun h => Except.noConfusion h)
    | .error v, .error w =>
      decidable_of_iff (v = w) ⟨fun h => by rw [h], fun h => by injection h⟩

/-! ### Sample inputs used by witnesses and counterexamples -/

/-- Decision function that never accepts (e.g. a smooth angle with
`cos(smooth_angle) < -1`, which no dot product of unit tangents exceeds). -/
def scFalse : SmoothFn := fun _ _ => false

/-- Decision function that always accepts. -/
def scTrue : SmoothFn := fun _ _ => true

/-- Two disjoint line cells. -/
def sampleDisjoint : Grid := ⟨4, [⟨3, [0, 1]⟩, ⟨3, [2, 3]⟩]⟩

/-- A line cell `[0, 1]` and a polyline cell `[2, 1, 3]` meeting it at the
interior point `1` of the polyline: a valid line/polyline mesh. -/
def sampleInteriorJunction : Grid := ⟨4, [⟨3, [0, 1]⟩, ⟨4, [2, 1, 3]⟩]⟩

/-- Two line cells sharing endpoint `1`. -/
def sampleTwoLines : Grid := ⟨3, [⟨3, [0, 1]⟩, ⟨3, [1, 2]⟩]⟩

/-- A line cell followed by a triangle cell (VTK type 5). -/
def sampleTriangle : Grid := ⟨5, [⟨3, [0, 1]⟩, ⟨5, [2, 3, 4]⟩]⟩

/-- The same two cells with the triangle first (offending index 0). -/
def sampleTriangleFirst : Grid := ⟨5, [⟨5, [2, 3, 4]⟩, ⟨3, [0, 1]⟩]⟩

/-- State of a chain seeded from cell 0 of `sampleTwoLines`: tracker, store and
chain before the growth step at boundary point 1, and after it. -/
def wTracker : Tracker := [none, some 1]

/-- Store before the witnessed growth step. -/
def wStore : Store := [⟨0, none, none⟩, ⟨1, none, none⟩]

/-- Chain before the witnessed growth step. -/
def wChain : MergedPolyline := ⟨[0, 1], some 0, [0]⟩

/-- Store after the witnessed growth step. -/
def wStore2 : Store := [⟨0, none, none⟩, ⟨1, none, none⟩, ⟨1, none, none⟩, ⟨2, none, none⟩]

/-- Chain after the witnessed growth step. -/
def wChain2 : MergedPolyline := ⟨[0, 1, 3], some 1, [0, 1]⟩

/-! ### General list helper lemmas -/

theorem two_mem_le_length {α : Type} {x y : α} {l : List α} (hx : x ∈ l) (hy : y ∈ l)
    (hxy : ¬ x = y) : 2 ≤ l.length := by
  match l with
  | [] => cases hx
  | [a] =>
    simp only [List.mem_singleton] at hx hy
    exact absurd (hx.trans hy.symm) hxy
  | a :: b :: t => simp only [List.length_cons]; omega

theorem getD_set_cases {α : Type} (l : List α) (j i : Nat) (v d : α) :
    ((l.set j v).getD i d = l.getD i d) ∨ ((l.set j v).getD i d = v) := by
  simp only [List.getD_eq_getElem?_getD, List.getElem?_set]
  split
  · split
    · simp
    · left
      rw [List.getElem?_eq_none (by omega)]
  · left; rfl

theorem getD_set_self {α : Type} (l : List α) (i : Nat) (v d : α) (h : i < l.length) :
    (l.set i v).getD i d = v := by
  simp [List.getD_eq_getElem?_getD, List.getElem?_set, h]

theorem getD_set_ne {α : Type} (l : List α) (i j : Nat) (v d : α) (h : ¬ i = j) :
    (l.set i v).getD j d = l.getD j d := by
  simp [List.getD_eq_getElem?_getD, List.getElem?_set, h]

theorem getD_lt_length {α : Type} [DecidableEq α] {l : List α} {i : Nat} {d : α}
    (h : ¬ l.getD i d = d) : i < l.length := by
  by_contra hlt
  exact h (List.getD_eq_default l d (by omega))

/-! ### Claim C8: unsupported cell types are rejected up front -/

theorem check_cell_types_error_at (l : List Cell) : ∀ (i : Nat) (c : Cell),
    l.get? i = some c → ¬ (c.kind = 3 ∨ c.kind = 4) →
    (∀ j cj, j < i → l.get? j = some cj → (cj.kind = 3 ∨ cj.kind = 4)) →
    check_cell_types l = .error (.unsupportedCellType c.kind) := by
  induction l with
  | nil => intro i c hget; simp at hget
  | cons hd tl ih =>
    intro i c hget hbad hmin
    match i with
    | 0 =>
      simp only [List.get?_eq_getElem?, List.getElem?_cons_zero, Option.some.injEq] at hget
      subst hget
      simp [check_cell_types, hbad]
    | i + 1 =>
      have hhd : hd.kind = 3 ∨ hd.kind = 4 := hmin 0 hd (by omega) rfl
      have htl : check_cell_types tl = .error (.unsupportedCellType c.kind) := by
        refine ih i c ?_ hbad ?_
        · simpa using hget
        · intro j cj hj hgj
          exact hmin (j + 1) cj (by omega) (by simpa using hgj)
      simpa [check_cell_types, hhd] using htl

/-- Counterexample to C8 as stated: the unsupported-cell-type failure does not
name the offending cell index.  Two meshes whose only offending cell (the
triangle `[2, 3, 4]`, VTK type 5) sits at different indices — index 0 in
`sampleTriangleFirst`, index 1 in `sampleTriangle` — fail with the identical
error value, carrying the kind but from which the index cannot be recovered,
exactly as the source's `ValueError` message formats only `type(cell)` and the
VTK type id. -/
theorem merge_polylines_unsupported_index_not_named :
    (sampleTriangleFirst.cells.get? 0 = some ⟨5, [2, 3, 4]⟩
      ∧ sampleTriangle.cells.get? 1 = some ⟨5, [2, 3, 4]⟩)
  ∧ merge_polylines sampleTriangleFirst [] scFalse 0 = .error (.unsupportedCellType 5)
  ∧ merge_polylines sampleTriangle [] scFalse 0 = .error (.unsupportedCellType 5) := by
  decide

/-- Claim C8, amended: a mesh containing a cell that is neither a line (VTK
type 3) nor a polyline (VTK type 4) makes `merge_polylines` fail with the
unsupported-cell-type error naming the first offending cell's actual kind —
but not, contrary to the claim, its index, which the raised exception does not
carry — regardless of the close-pair list, the smoothness decision and the
loop fuel (in particular with zero fuel: the check runs over all cells before
any traversal and before any output). -/
theorem merge_polylines_unsupported_cell_rejection :
    ∀ (g : Grid) (pairs : List (Nat × Nat)) (sc : SmoothFn) (fuel : Nat) (i : Nat) (c : Cell),
    g.cells.get? i = some c → ¬ (c.kind = 3 ∨ c.kind = 4) →
    (∀ j cj, j < i → g.cells.get? j = some cj → (cj.kind = 3 ∨ cj.kind = 4)) →
    merge_polylines g pairs sc fuel = .error (.unsupportedCellType c.kind) := by
  intro g pairs sc fuel i c hget hbad hmin
  have hchk := check_cell_types_error_at g.cells i c hget hbad hmin
  simp [merge_polylines, hchk]

/-- Witness for the amended C8 at a concrete mesh: a triangle cell at index 1
after a valid line cell is rejected with its kind, with zero fuel. -/
theorem merge_polylines_unsupported_cell_rejection_witness :
    merge_polylines sampleTriangle [] scFalse 0 = .error (.unsupportedCellType 5) := by
  refine merge_polylines_unsupported_cell_rejection sampleTriangle [] scFalse 0 1 ⟨5, [2, 3, 4]⟩
    (by decide) (by decide) ?_
  intro j cj hj hgj
  have hj0 : j = 0 := by omega
  subst hj0
  have : cj = (⟨3, [0, 1]⟩ : Cell) := by
    simpa [sampleTriangle] using hgj.symm
  rw [this]
  left; rfl

/-! ### Claims C4 and C10: partner-index construction -/

theorem getD_replicate_neg_one (k i : Nat) : (List.replicate k (-1 : Int)).getD i (-1) = -1 := by
  rcases Nat.lt_or_ge i k with h | h
  · simp [List.getD_eq_getElem?_getD, List.getElem?_replicate, h]
  · exact List.getD_eq_default _ _ (by simpa using h)

theorem pairs_loop_invariant :
    ∀ (pairs : List (Nat × Nat)) (pl : List Int) (n : Nat) (pl' : List Int) (n' : Nat),
    pairs_to_partner_list_loop pairs pl n = .ok (pl', n') →
    (∀ i, pl.getD i (-1) = -1 ∨ ∃ c : Nat, c < n ∧ pl.getD i (-1) = (c : Int)) →
    n ≤ n' ∧ pl'.length = pl.length ∧
      (∀ i, pl'.getD i (-1) = -1 ∨ ∃ c : Nat, c < n' ∧ pl'.getD i (-1) = (c : Int)) := by
  intro pairs
  induction pairs with
  | nil =>
    intro pl n pl' n' h hinv
    simp only [pairs_to_partner_list_loop, Except.ok.injEq, Prod.mk.injEq] at h
    obtain ⟨rfl, rfl⟩ := h
    exact ⟨le_refl _, rfl, hinv⟩
  | cons pr rest ih =>
    intro pl n pl' n' h hinv
    obtain ⟨a, b⟩ := pr
    simp only [pairs_to_partner_list_loop] at h
    split_ifs at h with hab ha hb hne
    · have hinv2 : ∀ i, ((pl.set a (n : Int)).set b (n : Int)).getD i (-1) = -1 ∨
          ∃ c : Nat, c < n + 1 ∧ ((pl.set a (n : Int)).set b (n : Int)).getD i (-1) = (c : Int) := by
        intro i
        rcases getD_set_cases (pl.set a (n : Int)) b i (n : Int) (-1) with h2 | h2
        · rcases getD_set_cases pl a i (n : Int) (-1) with h1 | h1
          · rw [h2, h1]
            rcases hinv i with h0 | ⟨c, hc, h0⟩
            · exact Or.inl h0
            · exact Or.inr ⟨c, by omega, h0⟩
          · exact Or.inr ⟨n, by omega, by rw [h2, h1]⟩
        · exact Or.inr ⟨n, by omega, h2⟩
      obtain ⟨h1, h2, h3⟩ := ih _ _ _ _ h hinv2
      exact ⟨by omega, by simpa using h2, h3⟩
    · have hbv : ∃ c : Nat, c < n ∧ pl.getD b (-1) = (c : Int) := by
        rcases hinv b with h0 | h0
        · exact absurd ⟨ha, h0⟩ hab
        · exact h0
      obtain ⟨cb, hcb, hvb⟩ := hbv
      have hinv2 : ∀ i, (pl.set a (pl.getD b (-1))).getD i (-1) = -1 ∨
          ∃ c : Nat, c < n ∧ (pl.set a (pl.getD b (-1))).getD i (-1) = (c : Int) := by
        intro i
        rcases getD_set_cases pl a i (pl.getD b (-1)) (-1) with h1 | h1
        · rw [h1]; exact hinv i
        · rw [h1, hvb]; exact Or.inr ⟨cb, hcb, rfl⟩
      obtain ⟨h1, h2, h3⟩ := ih _ _ _ _ h hinv2
      exact ⟨h1, by simpa using h2, h3⟩
    · have hav : ∃ c : Nat, c < n ∧ pl.getD a (-1) = (c : Int) := by
        rcases hinv a with h0 | h0
        · exact absurd h0 ha
        · exact h0
      obtain ⟨ca, hca, hva⟩ := hav
      have hinv2 : ∀ i, (pl.set b (pl.getD a (-1))).getD i (-1) = -1 ∨
          ∃ c : Nat, c < n ∧ (pl.set b (pl.getD a (-1))).getD i (-1) = (c : Int) := by
        intro i
        rcases getD_set_cases pl b i (pl.getD a (-1)) (-1) with h1 | h1
        · rw [h1]; exact hinv i
        · rw [h1, hva]; exact Or.inr ⟨ca, hca, rfl⟩
      obtain ⟨h1, h2, h3⟩ := ih _ _ _ _ h hinv2
      exact ⟨h1, by simpa using h2, h3⟩
    · exact ih _ _ _ _ h hinv

/-- Claim C4: processing the (sorted) close pairs, a pair with neither point
clustered allocates a fresh cluster id and assigns it to both points; a pair
with exactly one point clustered assigns that cluster to the other point; a
pair whose points lie in two different clusters raises the ambiguous-cluster
error; a pair whose points share a cluster is a no-op.  On success every point
maps to the `-1` sentinel or to exactly one cluster id in `[0, n_clusters)`,
over a partner list of one entry per point. -/
theorem pairs_to_partner_list_spec :
    (∀ (a b : Nat) (rest : List (Nat × Nat)) (pl : List Int) (n : Nat),
      pl.getD a (-1) = -1 → pl.getD b (-1) = -1 →
      pairs_to_partner_list_loop ((a, b) :: rest) pl n =
        pairs_to_partner_list_loop rest ((pl.set a (n : Int)).set b (n : Int)) (n + 1))
  ∧ (∀ (a b : Nat) (rest : List (Nat × Nat)) (pl : List Int) (n : Nat),
      pl.getD a (-1) = -1 → ¬ pl.getD b (-1) = -1 →
      pairs_to_partner_list_loop ((a, b) :: rest) pl n =
        pairs_to_partner_list_loop rest (pl.set a (pl.getD b (-1))) n)
  ∧ (∀ (a b : Nat) (rest : List (Nat × Nat)) (pl : List Int) (n : Nat),
      ¬ pl.getD a (-1) = -1 → pl.getD b (-1) = -1 →
      pairs_to_partner_list_loop ((a, b) :: rest) pl n =
        pairs_to_partner_list_loop rest (pl.set b (pl.getD a (-1))) n)
  ∧ (∀ (a b : Nat) (rest : List (Nat × Nat)) (pl : List Int) (n : Nat),
      ¬ pl.getD a (-1) = -1 → ¬ pl.getD b (-1) = -1 →
      ¬ pl.getD a (-1) = pl.getD b (-1) →
      pairs_to_partner_list_loop ((a, b) :: rest) pl n = .error .ambiguousCluster)
  ∧ (∀ (a b : Nat) (rest : List (Nat × Nat)) (pl : List Int) (n : Nat),
      ¬ pl.getD a (-1) = -1 → pl.getD a (-1) = pl.getD b (-1) →
      pairs_to_partner_list_loop ((a, b) :: rest) pl n = pairs_to_partner_list_loop rest pl n)
  ∧ (∀ (pairs : List (Nat × Nat)) (n_points : Nat) (pl : List Int) (k : Nat),
      pairs_to_partner_list pairs n_points = .ok (pl, k) →
      pl.length = n_points ∧
        ∀ i, pl.getD i (-1) = -1 ∨ ∃ c : Nat, c < k ∧ pl.getD i (-1) = (c : Int)) := by
  refine ⟨?_, ?_, ?_, ?_, ?_, ?_⟩
  · intro a b rest pl n h1 h2
    simp only [pairs_to_partner_list_loop]
    rw [if_pos ⟨h1, h2⟩]
  · intro a b rest pl n h1 h2
    simp only [pairs_to_partner_list_loop]
    rw [if_neg (fun hc => h2 hc.2), if_pos h1]
  · intro a b rest pl n h1 h2
    simp only [pairs_to_partner_list_loop]
    rw [if_neg (fun hc => h1 hc.1), if_neg h1, if_pos h2]
  · intro a b rest pl n h1 h2 h3
    simp only [pairs_to_partner_list_loop]
    rw [if_neg (fun hc => h1 hc.1), if_neg h1, if_neg h2, if_pos h3]
  · intro a b rest pl n h1 h2
    have h2' : ¬ pl.getD b (-1) = -1 := fun hb => h1 (h2.trans hb)
    simp only [pairs_to_partner_list_loop]
    rw [if_neg (fun hc => h1 hc.1), if_neg h1, if_neg h2', if_neg (fun hc => hc h2)]
  · intro pairs n_points pl k h
    unfold pairs_to_partner_list at h
    have hinv0 : ∀ i, (List.replicate n_points (-1 : Int)).getD i (-1) = -1 ∨
        ∃ c : Nat, c < 0 ∧ (List.replicate n_points (-1 : Int)).getD i (-1) = (c : Int) := by
      intro i; exact Or.inl (getD_replicate_neg_one _ _)
    obtain ⟨_, h2, h3⟩ := pairs_loop_invariant _ _ _ _ _ h hinv0
    exact ⟨by simpa using h2, h3⟩

/-- Witness for C4: each of the four pair-processing cases and the final
invariant, at concrete inputs. -/
theorem pairs_to_partner_list_spec_witness :
    (pairs_to_partner_list_loop [(0, 1)] [-1, -1] 0 =
      pairs_to_partner_list_loop [] ((([-1, -1] : List Int).set 0 (0 : Int)).set 1 (0 : Int)) (0 + 1))
  ∧ (pairs_to_partner_list_loop [(1, 0)] [7, -1] 8 =
      pairs_to_partner_list_loop [] (([7, -1] : List Int).set 1 (([7, -1] : List Int).getD 0 (-1))) 8)
  ∧ (pairs_to_partner_list_loop [(0, 1)] [7, -1] 8 =
      pairs_to_partner_list_loop [] (([7, -1] : List Int).set 1 (([7, -1] : List Int).getD 0 (-1))) 8)
  ∧ (pairs_to_partner_list_loop [(0, 1)] [0, 1] 2 = .error .ambiguousCluster)
  ∧ (pairs_to_partner_list_loop [(0, 1)] [5, 5] 6 = pairs_to_partner_list_loop [] [5, 5] 6)
  ∧ ([0, 0] : List Int).length = 2 := by
  refine ⟨?_, ?_, ?_, ?_, ?_, ?_⟩
  · exact pairs_to_partner_list_spec.1 0 1 [] [-1, -1] 0 (by decide) (by decide)
  · exact pairs_to_partner_list_spec.2.1 1 0 [] [7, -1] 8 (by decide) (by decide)
  · exact pairs_to_partner_list_spec.2.2.1 0 1 [] [7, -1] 8 (by decide) (by decide)
  · exact pairs_to_partner_list_spec.2.2.2.1 0 1 [] [0, 1] 2 (by decide) (by decide) (by decide)
  · exact pairs_to_partner_list_spec.2.2.2.2.1 0 1 [] [5, 5] 6 (by decide) (by decide)
  · exact (pairs_to_partner_list_spec.2.2.2.2.2 [(0, 1)] 2 [0, 0] 1 (by decide)).1

theorem mem_insert_pair_sorted {q p : Nat × Nat} :
    ∀ {l : List (Nat × Nat)}, q ∈ insert_pair_sorted p l → q = p ∨ q ∈ l := by
  intro l
  induction l with
  | nil =>
    intro h
    simp only [insert_pair_sorted, List.mem_singleton] at h
    exact Or.inl h
  | cons r t ih =>
    intro h
    simp only [insert_pair_sorted] at h
    split_ifs at h with hle
    · rcases List.mem_cons.mp h with h1 | h1
      · exact Or.inl h1
      · exact Or.inr h1
    · rcases List.mem_cons.mp h with h1 | h1
      · exact Or.inr (h1 ▸ List.mem_cons_self r t)
      · rcases ih h1 with h2 | h2
        · exact Or.inl h2
        · exact Or.inr (List.mem_cons_of_mem r h2)

theorem mem_sort_pairs {q : Nat × Nat} :
    ∀ {l : List (Nat × Nat)}, q ∈ sort_pairs_by_first l → q ∈ l := by
  intro l
  induction l with
  | nil => intro h; exact absurd h (by simp [sort_pairs_by_first])
  | cons p t ih =>
    intro h
    rcases mem_insert_pair_sorted (l := sort_pairs_by_first t) h with h1 | h1
    · exact h1 ▸ List.mem_cons_self p t
    · exact List.mem_cons_of_mem p (ih h1)

theorem pairs_loop_two_members :
    ∀ (pairs : List (Nat × Nat)) (pl : List Int) (n : Nat) (pl' : List Int) (n' : Nat),
    pairs_to_partner_list_loop pairs pl n = .ok (pl', n') →
    (∀ p ∈ pairs, ¬ p.1 = p.2 ∧ p.1 < pl.length ∧ p.2 < pl.length) →
    (∀ c : Nat, c < n →
      ∃ i j, ¬ i = j ∧ pl.getD i (-1) = (c : Int) ∧ pl.getD j (-1) = (c : Int)) →
    ∀ c : Nat, c < n' →
      ∃ i j, ¬ i = j ∧ pl'.getD i (-1) = (c : Int) ∧ pl'.getD j (-1) = (c : Int) := by
  intro pairs
  induction pairs with
  | nil =>
    intro pl n pl' n' h _ hinv
    simp only [pairs_to_partner_list_loop, Except.ok.injEq, Prod.mk.injEq] at h
    obtain ⟨rfl, rfl⟩ := h
    exact hinv
  | cons pr rest ih =>
    intro pl n pl' n' h hp hinv
    obtain ⟨a, b⟩ := pr
    have habr := hp (a, b) (List.mem_cons_self _ _)
    have hrest : ∀ p ∈ rest, ¬ p.1 = p.2 ∧ p.1 < pl.length ∧ p.2 < pl.length :=
      fun p hm => hp p (List.mem_cons_of_mem _ hm)
    simp only [pairs_to_partner_list_loop] at h
    split_ifs at h with hab ha hb hne
    · refine ih _ _ _ _ h (by simpa using hrest) ?_
      intro c hc
      by_cases hcn : c < n
      · obtain ⟨i, j, hij, hi, hj⟩ := hinv c hcn
        have hia : ¬ a = i := fun he => by rw [← he, hab.1] at hi; omega
        have hib : ¬ b = i := fun he => by rw [← he, hab.2] at hi; omega
        have hja : ¬ a = j := fun he => by rw [← he, hab.1] at hj; omega
        have hjb : ¬ b = j := fun he => by rw [← he, hab.2] at hj; omega
        refine ⟨i, j, hij, ?_, ?_⟩
        · rw [getD_set_ne _ b i _ _ hib, getD_set_ne _ a i _ _ hia]; exact hi
        · rw [getD_set_ne _ b j _ _ hjb, getD_set_ne _ a j _ _ hja]; exact hj
      · have hceq : c = n := by omega
        subst hceq
        refine ⟨a, b, habr.1, ?_, ?_⟩
        · rw [getD_set_ne _ b a _ _ (fun he => habr.1 he.symm),
            getD_set_self _ a _ _ habr.2.1]
        · rw [getD_set_self _ b _ _ (by simpa using habr.2.2)]
    · refine ih _ _ _ _ h (by simpa using hrest) ?_
      intro c hc
      obtain ⟨i, j, hij, hi, hj⟩ := hinv c hc
      have hia : ¬ a = i := fun he => by rw [← he, ha] at hi; omega
      have hja : ¬ a = j := fun he => by rw [← he, ha] at hj; omega
      exact ⟨i, j, hij, by rw [getD_set_ne _ a i _ _ hia]; exact hi,
        by rw [getD_set_ne _ a j _ _ hja]; exact hj⟩
    · refine ih _ _ _ _ h (by simpa using hrest) ?_
      intro c hc
      obtain ⟨i, j, hij, hi, hj⟩ := hinv c hc
      have hib : ¬ b = i := fun he => by rw [← he, hb] at hi; omega
      have hjb : ¬ b = j := fun he => by rw [← he, hb] at hj; omega
      exact ⟨i, j, hij, by rw [getD_set_ne _ b i _ _ hib]; exact hi,
        by rw [getD_set_ne _ b j _ _ hjb]; exact hj⟩
    · exact ih _ _ _ _ h hrest hinv

/-- Claim C10: for pairs of distinct in-range point ids accepted without error,
every allocated cluster id below `n_clusters` has at least two member points in
the derived cluster-membership lists, which are therefore never empty or
singleton. -/
theorem partner_clusters_have_at_least_two_members :
    ∀ (pairs : List (Nat × Nat)) (n_points : Nat) (pl : List Int) (k : Nat),
    (∀ p ∈ pairs, ¬ p.1 = p.2 ∧ p.1 < n_points ∧ p.2 < n_points) →
    pairs_to_partner_list pairs n_points = .ok (pl, k) →
    ∀ c : Nat, c < k → 2 ≤ ((point_partners_to_partner_indices pl k).getD c []).length := by
  intro pairs n_points pl k hp h c hc
  unfold pairs_to_partner_list at h
  have hp' : ∀ p ∈ sort_pairs_by_first pairs,
      ¬ p.1 = p.2 ∧ p.1 < (List.replicate n_points (-1 : Int)).length ∧
        p.2 < (List.replicate n_points (-1 : Int)).length := by
    intro p hm
    have := hp p (mem_sort_pairs hm)
    simpa using this
  have h2 := pairs_loop_two_members _ _ _ _ _ h hp'
    (fun c0 hc0 => absurd hc0 (Nat.not_lt_zero c0)) c hc
  obtain ⟨i, j, hij, hi, hj⟩ := h2
  have hgetD : (point_partners_to_partner_indices pl k).getD c [] =
      (List.range pl.length).filter (fun i => pl.getD i (-1) == (c : Int)) := by
    unfold point_partners_to_partner_indices
    rw [List.getD_eq_getElem?_getD, List.getElem?_map, List.getElem?_range hc]
    rfl
  rw [hgetD]
  have hi_lt : i < pl.length := getD_lt_length (by rw [hi]; omega)
  have hj_lt : j < pl.length := getD_lt_length (by rw [hj]; omega)
  have hmi : i ∈ (List.range pl.length).filter (fun i => pl.getD i (-1) == (c : Int)) :=
    List.mem_filter.mpr ⟨List.mem_range.mpr hi_lt, by simpa only [beq_iff_eq] using hi⟩
  have hmj : j ∈ (List.range pl.length).filter (fun i => pl.getD i (-1) == (c : Int)) :=
    List.mem_filter.mpr ⟨List.mem_range.mpr hj_lt, by simpa only [beq_iff_eq] using hj⟩
  exact two_mem_le_length hmi hmj hij

/-- Witness for C10 at a concrete pair list: the single pair `(0, 1)` over two
points yields one cluster with two members. -/
theorem partner_clusters_have_at_least_two_members_witness :
    2 ≤ ((point_partners_to_partner_indices [0, 0] 1).getD 0 []).length :=
  partner_clusters_have_at_least_two_members [(0, 1)] 2 [0, 0] 1 (by decide) (by decide) 0
    (by decide)

/-! ### Claim C3: the smoothness test and the outward tangents -/

theorem get_indices_tangent_ref_ok_iff (conn : List Nat) (point_id a b : Nat) :
    get_indices_tangent_ref conn point_id = .ok (a, b) ↔
      (b = point_id ∧ 2 ≤ conn.length ∧
        ((conn.getLast? = some point_id ∧ a = conn.getD (conn.length - 2) 0) ∨
         (¬ conn.getLast? = some point_id ∧ conn.head? = some point_id ∧
           a = conn.getD 1 0))) := by
  unfold get_indices_tangent_ref
  split_ifs with he hl h2 hh h2'
  · have : conn = [] := List.isEmpty_iff.mp he
    subst this
    simp
  · simp only [Except.ok.injEq, Prod.mk.injEq]
    constructor
    · rintro ⟨ha, hb⟩
      exact ⟨hb.symm, h2, Or.inl ⟨hl, ha.symm⟩⟩
    · rintro ⟨hb, _, hcase⟩
      rcases hcase with ⟨_, ha⟩ | ⟨hnl, _, _⟩
      · exact ⟨ha.symm, hb.symm⟩
      · exact absurd hl hnl
  · constructor
    · intro h; exact absurd h (by simp)
    · rintro ⟨_, hlen, _⟩; exact absurd hlen h2
  · simp only [Except.ok.injEq, Prod.mk.injEq]
    constructor
    · rintro ⟨ha, hb⟩
      exact ⟨hb.symm, h2', Or.inr ⟨hl, hh, ha.symm⟩⟩
    · rintro ⟨hb, _, hcase⟩
      rcases hcase with ⟨hl', _⟩ | ⟨_, _, ha⟩
      · exact absurd hl' hl
      · exact ⟨ha.symm, hb.symm⟩
  · constructor
    · intro h; exact absurd h (by simp)
    · rintro ⟨_, hlen, _⟩; exact absurd hlen h2'
  · constructor
    · intro h; exact absurd h (by simp)
    · rintro ⟨_, _, hcase⟩
      rcases hcase with ⟨hl', _⟩ | ⟨_, hh', _⟩
      · exact absurd hl' hl
      · exact absurd hh' hh

/-- Claim C3: the smoothness test accepts iff `cos(smooth_angle)` strictly
exceeds the dot product of the two outward tangents; the tangent of a
connectivity list at its connecting point is exactly the spec's "unit vector
from the second-to-boundary point to the boundary point", computed from the
endpoint whose id matches the connecting point; and when the connecting point
matches neither endpoint the `ValueError` is raised. -/
theorem smoothness_test_characterization :
    (∀ (conn : List Nat) (point_id a b : Nat),
      get_indices_tangent_ref conn point_id = .ok (a, b) → b = point_id)
  ∧ (∀ (pts : Nat → Vec3) (conn : List Nat) (point_id : Nat) (t : Vec3),
      get_indices_tangent pts conn point_id t ↔ spec_outward_tangent pts conn point_id t)
  ∧ (∀ (conn : List Nat) (point_id : Nat), ¬ conn = [] →
      ¬ conn.getLast? = some point_id → ¬ conn.head? = some point_id →
      get_indices_tangent_ref conn point_id = .error .pointNotInConnectivity)
  ∧ (∀ (t1 t2 : Vec3) (angle : ℝ),
      smooth_angle_check t1 t2 angle ↔
        Real.cos angle > t1.1 * t2.1 + t1.2.1 * t2.2.1 + t1.2.2 * t2.2.2) := by
  refine ⟨?_, ?_, ?_, ?_⟩
  · intro conn point_id a b h
    exact ((get_indices_tangent_ref_ok_iff conn point_id a b).mp h).1
  · intro pts conn point_id t
    unfold get_indices_tangent spec_outward_tangent
    constructor
    · rintro ⟨a, b, href, htan⟩
      obtain ⟨hb, h2, hcase⟩ := (get_indices_tangent_ref_ok_iff conn point_id a b).mp href
      subst hb
      rcases hcase with ⟨hlast, ha⟩ | ⟨hnl, hh, ha⟩
      · exact Or.inl ⟨hlast, h2, ha ▸ htan⟩
      · exact Or.inr ⟨hnl, hh, h2, ha ▸ htan⟩
    · rintro (⟨hlast, h2, ht⟩ | ⟨hnl, hh, h2, ht⟩)
      · exact ⟨conn.getD (conn.length - 2) 0, point_id,
          (get_indices_tangent_ref_ok_iff conn point_id _ _).mpr ⟨rfl, h2, Or.inl ⟨hlast, rfl⟩⟩,
          ht⟩
      · exact ⟨conn.getD 1 0, point_id,
          (get_indices_tangent_ref_ok_iff conn point_id _ _).mpr
            ⟨rfl, h2, Or.inr ⟨hnl, hh, rfl⟩⟩, ht⟩
  · intro conn point_id hne hl hh
    unfold get_indices_tangent_ref
    rw [if_neg (fun hc => hne (List.isEmpty_iff.mp hc)), if_neg hl, if_neg hh]
  · intro t1 t2 angle
    exact Iff.rfl

/-- Witness for C3 at concrete connectivity lists, points and tangents. -/
theorem smoothness_test_characterization_witness :
    (7 = 7)
  ∧ (get_indices_tangent (fun _ => ((0 : ℝ), (0 : ℝ), (0 : ℝ))) [5, 7] 7 ((0 : ℝ), (0 : ℝ), (0 : ℝ)) ↔
      spec_outward_tangent (fun _ => ((0 : ℝ), (0 : ℝ), (0 : ℝ))) [5, 7] 7
        ((0 : ℝ), (0 : ℝ), (0 : ℝ)))
  ∧ (get_indices_tangent_ref [5, 6] 9 = .error .pointNotInConnectivity)
  ∧ (smooth_angle_check ((1 : ℝ), (0 : ℝ), (0 : ℝ)) ((0 : ℝ), (1 : ℝ), (0 : ℝ)) 0 ↔
      Real.cos 0 > (1 : ℝ) * 0 + 0 * 1 + 0 * 0) :=
  ⟨smoothness_test_characterization.1 [5, 7] 7 5 7 (by decide),
   smoothness_test_characterization.2.1 (fun _ => ((0 : ℝ), (0 : ℝ), (0 : ℝ))) [5, 7] 7
     ((0 : ℝ), (0 : ℝ), (0 : ℝ)),
   smoothness_test_characterization.2.2.1 [5, 6] 9 (by decide) (by decide) (by decide),
   smoothness_test_characterization.2.2.2 ((1 : ℝ), (0 : ℝ), (0 : ℝ))
     ((0 : ℝ), (1 : ℝ), (0 : ℝ)) 0⟩

/-! ### Claim C5: the closed-loop detector -/

/-- Claim C5: for a completed chain, `check_closed` replaces the last entry by
the first handle when the primary ids coincide; when they differ but the first
point's primary id has a partner cluster containing the last point's primary
id, it records the two-id pairing on the first merge point and replaces the
last entry by the first handle; otherwise the chain is unchanged. -/
theorem check_closed_cases :
    ∀ (d : MergePolylineData) (s : Store) (mp : MergedPolyline) (h0 hl : Nat),
    mp.pts.head? = some h0 → mp.pts.getLast? = some hl →
    ((s.getD h0 default).index_1 = (s.getD hl default).index_1 →
      check_closed d s mp = (s, { mp with pts := mp.pts.dropLast ++ [h0] }))
  ∧ (¬ (s.getD h0 default).index_1 = (s.getD hl default).index_1 →
      d.partner_list.getD (s.getD h0 default).index_1 (-1) = -1 →
      check_closed d s mp = (s, mp))
  ∧ (∀ partner_id : Int,
      ¬ (s.getD h0 default).index_1 = (s.getD hl default).index_1 →
      d.partner_list.getD (s.getD h0 default).index_1 (-1) = partner_id →
      ¬ partner_id = -1 →
      (s.getD hl default).index_1 ∈ d.partner_grouped.getD partner_id.toNat [] →
      check_closed d s mp =
        (set_index_2 s h0 (s.getD hl default).index_1,
          { mp with pts := mp.pts.dropLast ++ [h0] }))
  ∧ (∀ partner_id : Int,
      ¬ (s.getD h0 default).index_1 = (s.getD hl default).index_1 →
      d.partner_list.getD (s.getD h0 default).index_1 (-1) = partner_id →
      ¬ partner_id = -1 →
      ¬ (s.getD hl default).index_1 ∈ d.partner_grouped.getD partner_id.toNat [] →
      check_closed d s mp = (s, mp)) := by
  intro d s mp h0 hl hh hlast
  refine ⟨?_, ?_, ?_, ?_⟩
  · intro h1
    simp only [check_closed, hh, hlast]
    rw [if_pos h1]
  · intro h1 h2
    simp only [check_closed, hh, hlast]
    rw [if_neg h1, if_pos h2]
  · intro partner_id h1 h2 h3 h4
    simp only [check_closed, hh, hlast]
    rw [if_neg h1, h2, if_neg h3, if_pos h4]
  · intro partner_id h1 h2 h3 h4
    simp only [check_closed, hh, hlast]
    rw [if_neg h1, h2, if_neg h3, if_neg h4]

/-- Witness for C5: a chain whose first and last merge points share the primary
id 0 is closed by aliasing the last entry to the first handle. -/
theorem check_closed_cases_witness :
    check_closed ⟨[], []⟩ [⟨0, none, none⟩, ⟨1, none, none⟩, ⟨0, none, none⟩]
        ⟨[0, 1, 2], none, [0]⟩ =
      ([⟨0, none, none⟩, ⟨1, none, none⟩, ⟨0, none, none⟩],
        { pts := [0, 1] ++ [0], last_cell_id := none, cells := [0] }) :=
  (check_closed_cases ⟨[], []⟩ [⟨0, none, none⟩, ⟨1, none, none⟩, ⟨0, none, none⟩]
      ⟨[0, 1, 2], none, [0]⟩ 0 2 (by decide) (by decide)).1 (by decide)

/-! ### Claim C6: the point merge resolver -/

/-- Claim C6: point resolution is idempotently memoised (an already assigned
output id is returned with the target grid untouched); a one-source-id merge
point appends a verbatim copy of the source coordinate and of every data
tuple; a two-source-id merge point appends the arithmetic midpoint of the two
coordinates and the elementwise arithmetic mean of every pair of data tuples;
in both cases the new output id is recorded on the merge point and returned. -/
theorem insert_point_by_index_spec {F : Type} [Field F] (src tgt : DataGrid F)
    (mp : MergePoint) :
    (∀ pid, mp.point_id = some pid → insert_point_by_index src tgt mp = (tgt, mp, pid))
  ∧ (mp.point_id = none → mp.index_2 = none →
      insert_point_by_index src tgt mp =
        (⟨tgt.points ++ [src.points.getD mp.index_1 (0, 0, 0)],
          (List.range src.dataArrays.length).map (fun ai =>
            tgt.dataArrays.getD ai [] ++ [(src.dataArrays.getD ai []).getD mp.index_1 []])⟩,
         { mp with point_id := some tgt.points.length }, tgt.points.length))
  ∧ (∀ i2, mp.point_id = none → mp.index_2 = some i2 →
      insert_point_by_index src tgt mp =
        (⟨tgt.points ++
            [(((src.points.getD mp.index_1 (0, 0, 0)).1 + (src.points.getD i2 (0, 0, 0)).1) / 2,
              ((src.points.getD mp.index_1 (0, 0, 0)).2.1 + (src.points.getD i2 (0, 0, 0)).2.1) / 2,
              ((src.points.getD mp.index_1 (0, 0, 0)).2.2 + (src.points.getD i2 (0, 0, 0)).2.2) / 2)],
          (List.range src.dataArrays.length).map (fun ai =>
            tgt.dataArrays.getD ai [] ++
              [List.zipWith (fun a b => (a + b) / 2)
                ((src.dataArrays.getD ai []).getD mp.index_1 [])
                ((src.dataArrays.getD ai []).getD i2 [])])⟩,
         { mp with point_id := some tgt.points.length }, tgt.points.length)) := by
  have hhalf : ∀ x y : F, (1 / 2 : F) * (x + y) = (x + y) / 2 := fun x y => by ring
  refine ⟨?_, ?_, ?_⟩
  · intro pid h
    simp only [insert_point_by_index, h]
  · intro h1 h2
    simp only [insert_point_by_index, h1, h2]
  · intro i2 h1 h2
    simp only [insert_point_by_index, h1, h2, mid_coords, mid_tuple, hhalf]

/-- Witness for C6 over the rationals: memoised, one-id and two-id resolutions
at concrete grids. -/
theorem insert_point_by_index_spec_witness :
    (insert_point_by_index (F := ℚ) ⟨[], []⟩ ⟨[], []⟩ ⟨0, none, some 5⟩ =
      (⟨[], []⟩, ⟨0, none, some 5⟩, 5))
  ∧ (insert_point_by_index (F := ℚ) ⟨[(1, 2, 3)], [[[4]]]⟩ ⟨[], [[]]⟩ ⟨0, none, none⟩ =
      (⟨[] ++ [(⟨[(1, 2, 3)], [[[4]]]⟩ : DataGrid ℚ).points.getD 0 (0, 0, 0)],
        (List.range 1).map (fun ai =>
          (⟨[], [[]]⟩ : DataGrid ℚ).dataArrays.getD ai [] ++
            [((⟨[(1, 2, 3)], [[[4]]]⟩ : DataGrid ℚ).dataArrays.getD ai []).getD 0 []])⟩,
       ⟨0, none, some 0⟩, 0)) := by
  constructor
  · exact (insert_point_by_index_spec (F := ℚ) ⟨[], []⟩ ⟨[], []⟩ ⟨0, none, some 5⟩).1 5 rfl
  · exact (insert_point_by_index_spec (F := ℚ) ⟨[(1, 2, 3)], [[[4]]]⟩ ⟨[], [[]]⟩
      ⟨0, none, none⟩).2.1 rfl rfl

/-! ### Claim C2: the three stop conditions of a growth step -/

/-- Claim C2: at a chain boundary, if the number of smoothness-accepted
candidates is not exactly one, growth stops with no error; if the unique
accepted candidate is already consumed in the tracker, growth stops with no
error; and if any other original candidate also passes the smoothness test
against the chosen cell's own tangent, growth stops with no error and without
appending the chosen cell. -/
theorem add_next_cell_stop_conditions :
    ∀ (g : Grid) (d : MergePolylineData) (sc : SmoothFn) (tracker : Tracker) (s : Store)
      (mp : MergedPolyline) (connected_point_id : Nat) (tangent : TangentRef)
      (withT : List PossibleCell),
    get_indices_tangent_ref (chain_connectivity s mp.pts) connected_point_id = .ok tangent →
    set_tangents g (possible_next_cells g d mp.last_cell_id connected_point_id) = .ok withT →
    ((¬ (withT.filter (fun pc => sc tangent pc.tangent)).length = 1 →
        add_next_cell g d sc tracker s mp connected_point_id = .ok none)
    ∧ (∀ c, withT.filter (fun pc => sc tangent pc.tangent) = [c] →
        tracker.getD c.cell_id none = none →
        add_next_cell g d sc tracker s mp connected_point_id = .ok none)
    ∧ (∀ c x, withT.filter (fun pc => sc tangent pc.tangent) = [c] →
        tracker.getD c.cell_id none = some x →
        (∃ pc ∈ withT, ¬ pc.cell_id = c.cell_id ∧ sc c.tangent pc.tangent = true) →
        add_next_cell g d sc tracker s mp connected_point_id = .ok none)) := by
  intro g d sc tracker s mp connected_point_id tangent withT hT hW
  refine ⟨?_, ?_, ?_⟩
  · intro h1
    simp only [add_next_cell, hT, hW]
    rcases hF : withT.filter (fun pc => sc tangent pc.tangent) with _ | ⟨c, _ | ⟨c2, rest⟩⟩
    · rw [hF]
    · exact absurd (by rw [hF]; rfl) h1
    · rw [hF]
  · intro c hF htr
    simp only [add_next_cell, hT, hW, hF, htr]
  · intro c x hF htr hex
    simp only [add_next_cell, hT, hW, hF, htr]
    have hany : withT.any (fun pc => pc.cell_id != c.cell_id && sc c.tangent pc.tangent) = true := by
      obtain ⟨pc, hmem, hne, hsc⟩ := hex
      exact List.any_eq_true.mpr ⟨pc, hmem, by simp [hne, hsc]⟩
    rw [if_pos hany]

/-- Witness for C2: the three stop conditions at concrete junctions — no
candidate at all, a unique but already consumed candidate, and a bifurcation
caught by the defensive re-check. -/
theorem add_next_cell_stop_conditions_witness :
    (add_next_cell sampleDisjoint ⟨List.replicate 4 (-1), []⟩ scFalse [none, some 1]
        [⟨0, none, none⟩, ⟨1, none, none⟩] ⟨[0, 1], some 0, [0]⟩ 1 = .ok none)
  ∧ (add_next_cell sampleTwoLines ⟨List.replicate 3 (-1), []⟩ scTrue [none, none]
        [⟨0, none, none⟩, ⟨1, none, none⟩] ⟨[0, 1], some 0, [0]⟩ 1 = .ok none)
  ∧ (add_next_cell ⟨4, [⟨3, [0, 1]⟩, ⟨3, [1, 2]⟩, ⟨3, [1, 3]⟩]⟩ ⟨List.replicate 4 (-1), []⟩
        (fun t1 t2 => (t1 == ((0 : Nat), (1 : Nat)) && t2 == ((2 : Nat), (1 : Nat))) ||
          (t1 == ((2 : Nat), (1 : Nat)) && t2 == ((3 : Nat), (1 : Nat))))
        [none, some 1, some 2] [⟨0, none, none⟩, ⟨1, none, none⟩] ⟨[0, 1], some 0, [0]⟩ 1 =
      .ok none) := by
  refine ⟨?_, ?_, ?_⟩
  · exact (add_next_cell_stop_conditions sampleDisjoint ⟨List.replicate 4 (-1), []⟩ scFalse
      [none, some 1] [⟨0, none, none⟩, ⟨1, none, none⟩] ⟨[0, 1], some 0, [0]⟩ 1 (0, 1) []
      (by decide) (by decide)).1 (by decide)
  · exact (add_next_cell_stop_conditions sampleTwoLines ⟨List.replicate 3 (-1), []⟩ scTrue
      [none, none] [⟨0, none, none⟩, ⟨1, none, none⟩] ⟨[0, 1], some 0, [0]⟩ 1 (0, 1)
      [⟨1, 1, (2, 1)⟩] (by decide) (by decide)).2.1 ⟨1, 1, (2, 1)⟩ (by decide) (by decide)
  · exact (add_next_cell_stop_conditions ⟨4, [⟨3, [0, 1]⟩, ⟨3, [1, 2]⟩, ⟨3, [1, 3]⟩]⟩
      ⟨List.replicate 4 (-1), []⟩
      (fun t1 t2 => (t1 == ((0 : Nat), (1 : Nat)) && t2 == ((2 : Nat), (1 : Nat))) ||
        (t1 == ((2 : Nat), (1 : Nat)) && t2 == ((3 : Nat), (1 : Nat))))
      [none, some 1, some 2] [⟨0, none, none⟩, ⟨1, none, none⟩] ⟨[0, 1], some 0, [0]⟩ 1 (0, 1)
      [⟨1, 1, (2, 1)⟩, ⟨2, 1, (3, 1)⟩] (by decide) (by decide)).2.2 ⟨1, 1, (2, 1)⟩ 1
      (by decide) (by decide) (by decide)

/-! ### Store and candidate-collection helper lemmas -/

theorem store_getD_append (s new : Store) (h : Nat) (hlt : h < s.length) :
    (s ++ new).getD h default = s.getD h default := by
  simp [List.getD_eq_getElem?_getD, List.getElem?_append, hlt]

theorem set_index_2_length (s : Store) (h v : Nat) : (set_index_2 s h v).length = s.length := by
  unfold set_index_2
  cases s.get? h <;> simp

theorem set_index_2_index_1 (s : Store) (h v h' : Nat) :
    ((set_index_2 s h v).getD h' default).index_1 = (s.getD h' default).index_1 := by
  unfold set_index_2
  cases hg : s.get? h with
  | none => rfl
  | some mp =>
    rw [List.get?_eq_getElem?] at hg
    have hlt : h < s.length := by
      rcases Nat.lt_or_ge h s.length with hl | hl
      · exact hl
      · rw [List.getElem?_eq_none hl] at hg; cases hg
    have hmp : s.getD h default = mp := by
      simp [List.getD_eq_getElem?_getD, hg]
    by_cases he : h = h'
    · subst he
      rw [getD_set_self _ h _ _ hlt, hmp]
    · rw [getD_set_ne _ h h' _ _ he]

theorem set_index_2_getD_self (s : Store) (h v : Nat) (hlt : h < s.length) :
    (set_index_2 s h v).getD h default = { s.getD h default with index_2 := some v } := by
  unfold set_index_2
  cases hg : s.get? h with
  | none =>
    rw [List.get?_eq_getElem?, List.getElem?_eq_getElem hlt] at hg
    cases hg
  | some mp =>
    rw [List.get?_eq_getElem?] at hg
    have hmp : s.getD h default = mp := by
      simp [List.getD_eq_getElem?_getD, hg]
    rw [getD_set_self _ h _ _ hlt, hmp]

theorem chain_connectivity_append (s new : Store) (pts : List Nat)
    (hwf : ∀ h ∈ pts, h < s.length) :
    chain_connectivity (s ++ new) pts = chain_connectivity s pts :=
  List.map_congr_left fun h hm => by rw [store_getD_append s new h (hwf h hm)]

theorem chain_connectivity_set_index_2 (s : Store) (h v : Nat) (pts : List Nat) :
    chain_connectivity (set_index_2 s h v) pts = chain_connectivity s pts :=
  List.map_congr_left fun h' _ => set_index_2_index_1 s h v h'

theorem alloc_merge_points_fst (s : Store) (ids : List Nat) :
    (alloc_merge_points s ids).1 = s ++ ids.map (fun i => (⟨i, none, none⟩ : MergePoint)) := rfl

theorem alloc_merge_points_snd_length (s : Store) (ids : List Nat) :
    (alloc_merge_points s ids).2.length = ids.length := by
  simp [alloc_merge_points]

theorem chain_connectivity_alloc (s : Store) (ids : List Nat) :
    chain_connectivity (alloc_merge_points s ids).1 (alloc_merge_points s ids).2 = ids := by
  unfold chain_connectivity alloc_merge_points
  apply List.ext_getElem
  · simp
  · intro i h1 h2
    have hi : i < ids.length := by simpa using h2
    simp only [List.getElem_map, List.getElem_range]
    have hmid : (s ++ ids.map (fun i => (⟨i, none, none⟩ : MergePoint))).getD (i + s.length)
        default = (ids.map (fun i => (⟨i, none, none⟩ : MergePoint))).getD i default := by
      simp [List.getD_eq_getElem?_getD,
        List.getElem?_append_right (by omega : s.length ≤ i + s.length)]
    rw [hmid]
    simp [List.getD_eq_getElem?_getD, List.getElem?_map, List.getElem?_eq_getElem hi]

theorem point_cells_lt {g : Grid} {p c : Nat} (h : c ∈ point_cells g p) :
    c < g.cells.length := by
  unfold point_cells at h
  exact List.mem_range.mp (List.mem_of_mem_filter h)

theorem possible_next_cells_mem {g : Grid} {d : MergePolylineData} {last : Option Nat}
    {cp c p : Nat} (h : (c, p) ∈ possible_next_cells g d last cp) : c ∈ point_cells g p := by
  unfold possible_next_cells at h
  rcases List.mem_append.mp h with h1 | h1
  · obtain ⟨c0, hc0, heq⟩ := List.mem_map.mp h1
    obtain ⟨rfl, rfl⟩ := Prod.mk.injEq .. ▸ heq
    exact List.mem_of_mem_filter hc0
  · split_ifs at h1 with hpi
    · cases h1
    · obtain ⟨p0, _, hmem⟩ := List.mem_flatMap.mp h1
      obtain ⟨c0, hc0, heq⟩ := List.mem_map.mp hmem
      obtain ⟨rfl, rfl⟩ := Prod.mk.injEq .. ▸ heq
      exact hc0

theorem set_tangents_ok_mem {g : Grid} :
    ∀ {pcs : List (Nat × Nat)} {l : List PossibleCell}, set_tangents g pcs = .ok l →
    ∀ pc ∈ l, (pc.cell_id, pc.point_id) ∈ pcs := by
  intro pcs
  induction pcs with
  | nil =>
    intro l h pc hm
    simp only [set_tangents, Except.ok.injEq] at h
    subst h
    cases hm
  | cons q rest ih =>
    intro l h pc hm
    obtain ⟨c, p⟩ := q
    simp only [set_tangents] at h
    cases hr : get_indices_tangent_ref (cell_point_ids g c) p with
    | error e => rw [hr] at h; cases h
    | ok t =>
      rw [hr] at h
      cases hrest : set_tangents g rest with
      | error e => rw [hrest] at h; cases h
      | ok l' =>
        rw [hrest] at h
        simp only [Except.ok.injEq] at h
        subst h
        rcases List.mem_cons.mp hm with h1 | h1
        · subst h1; exact List.mem_cons_self _ _
        · exact List.mem_cons_of_mem _ (ih hrest pc h1)

theorem append_new_cell_ok_basic {g : Grid} {tracker : Tracker} {s : Store}
    {mp : MergedPolyline} {cp cid ncp : Nat} {t2 : Tracker} {s2 : Store}
    {mp2 : MergedPolyline} {p2 : Nat}
    (h : append_new_cell g tracker s mp cp cid ncp = .ok (t2, s2, mp2, p2)) :
    t2 = tracker.set cid none ∧ mp2.cells = mp.cells ++ [cid] ∧
      mp2.last_cell_id = some cid ∧
      mp2.pts.length + 1 = mp.pts.length + (cell_point_ids g cid).length := by
  simp only [append_new_cell] at h
  split_ifs at h with h1 h2 h3 h4
  · simp only [extend_chain, Except.ok.injEq, Prod.mk.injEq] at h
    obtain ⟨ht, _, hmp, _⟩ := h
    subst hmp
    refine ⟨ht.symm, rfl, rfl, ?_⟩
    have hne : ¬ cell_point_ids g cid = [] := by
      intro hc; rw [hc] at h1; simp at h1
    have hpos : 1 ≤ (cell_point_ids g cid).length := List.length_pos.mpr hne
    have hlen := alloc_merge_points_snd_length s (cell_point_ids g cid)
    simp only [List.length_append, List.length_tail]
    omega
  · simp only [extend_chain, Except.ok.injEq, Prod.mk.injEq] at h
    obtain ⟨ht, _, hmp, _⟩ := h
    subst hmp
    refine ⟨ht.symm, rfl, rfl, ?_⟩
    have hne : ¬ cell_point_ids g cid = [] := by
      intro hc; rw [hc] at h2; simp at h2
    have hpos : 1 ≤ (cell_point_ids g cid).length := List.length_pos.mpr hne
    have hlen := alloc_merge_points_snd_length s (cell_point_ids g cid)
    simp only [List.length_append, List.length_tail, List.length_reverse]
    omega
  · simp only [prepend_chain, Except.ok.injEq, Prod.mk.injEq] at h
    obtain ⟨ht, _, hmp, _⟩ := h
    subst hmp
    refine ⟨ht.symm, rfl, rfl, ?_⟩
    have hne : ¬ cell_point_ids g cid = [] := by
      intro hc; rw [hc] at h3; simp at h3
    have hpos : 1 ≤ (cell_point_ids g cid).length := List.length_pos.mpr hne
    have hlen := alloc_merge_points_snd_length s (cell_point_ids g cid)
    simp only [List.length_append, List.length_dropLast, List.length_reverse]
    omega
  · simp only [prepend_chain, Except.ok.injEq, Prod.mk.injEq] at h
    obtain ⟨ht, _, hmp, _⟩ := h
    subst hmp
    refine ⟨ht.symm, rfl, rfl, ?_⟩
    have hne : ¬ cell_point_ids g cid = [] := by
      intro hc; rw [hc] at h4; simp at h4
    have hpos : 1 ≤ (cell_point_ids g cid).length := List.length_pos.mpr hne
    have hlen := alloc_merge_points_snd_length s (cell_point_ids g cid)
    simp only [List.length_append, List.length_dropLast, List.length_reverse]
    omega

theorem add_next_cell_ok_some {g : Grid} {d : MergePolylineData} {sc : SmoothFn}
    {tracker : Tracker} {s : Store} {mp : MergedPolyline} {cp : Nat}
    {r : Tracker × Store × MergedPolyline × Nat}
    (h : add_next_cell g d sc tracker s mp cp = .ok (some r)) :
    ∃ cid ncp x, tracker.getD cid none = some x ∧ cid < g.cells.length ∧
      append_new_cell g tracker s mp cp cid ncp = .ok r := by
  simp only [add_next_cell] at h
  cases hT : get_indices_tangent_ref (chain_connectivity s mp.pts) cp with
  | error e => simp only [hT] at h; exact Except.noConfusion h
  | ok tangent =>
    simp only [hT] at h
    cases hW : set_tangents g (possible_next_cells g d mp.last_cell_id cp) with
    | error e => simp only [hW] at h; exact Except.noConfusion h
    | ok withT =>
      simp only [hW] at h
      rcases hF : withT.filter (fun pc => sc tangent pc.tangent) with _ | ⟨c, _ | ⟨c2, rest⟩⟩ <;>
        simp only [hF] at h
      · exact Option.noConfusion (Except.ok.inj h)
      · cases htr : tracker.getD c.cell_id none with
        | none => simp only [htr] at h; exact Option.noConfusion (Except.ok.inj h)
        | some x =>
          simp only [htr] at h
          split_ifs at h with hany
          · exact Option.noConfusion (Except.ok.inj h)
          · cases hA : append_new_cell g tracker s mp cp c.cell_id c.point_id with
            | error e => simp only [hA] at h; exact Except.noConfusion h
            | ok r' =>
              simp only [hA, Except.ok.injEq, Option.some.injEq] at h
              subst h
              have hmemW : c ∈ withT := List.mem_of_mem_filter (hF ▸ List.mem_cons_self c [])
              have hmemP := set_tangents_ok_mem hW c hmemW
              exact ⟨c.cell_id, c.point_id, x, htr,
                point_cells_lt (possible_next_cells_mem hmemP), hA⟩
      · exact Option.noConfusion (Except.ok.inj h)

/-! ### Claim C7: the shape of an appended growth step -/

theorem chain_connectivity_congr (s s1 : Store) (pts : List Nat)
    (hwf : ∀ h ∈ pts, h < s.length)
    (hpres : ∀ h, h < s.length → s1.getD h default = s.getD h default) :
    chain_connectivity s1 pts = chain_connectivity s pts :=
  List.map_congr_left fun h hm => by rw [hpres h (hwf h hm)]

theorem extend_chain_shape {tracker : Tracker} {s s1 : Store} {mp : MergedPolyline}
    {cid : Nat} {ordHs ordIds : List Nat} {cp ncp : Nat} {t2 : Tracker} {s2 : Store}
    {mp2 : MergedPolyline} {p2 : Nat}
    (hwf : ∀ h ∈ mp.pts, h < s.length)
    (hlen : s.length ≤ s1.length)
    (hpres : ∀ h, h < s.length → s1.getD h default = s.getD h default)
    (hordc : chain_connectivity s1 ordHs = ordIds)
    (hhead : ordIds.head? = some ncp)
    (hlast : (chain_connectivity s mp.pts).getLast? = some cp)
    (h : extend_chain tracker s1 mp cid ordHs ordIds = (t2, s2, mp2, p2)) :
    chain_connectivity s2 mp2.pts = chain_connectivity s mp.pts ++ ordIds.tail ∧
    (ncp = cp → (s2.getD (mp.pts.getLastD 0) default).index_2 =
      (s.getD (mp.pts.getLastD 0) default).index_2) ∧
    (¬ ncp = cp → (s2.getD (mp.pts.getLastD 0) default).index_2 = some ncp) := by
  simp only [extend_chain, Prod.mk.injEq] at h
  obtain ⟨_, hs, hmp, _⟩ := h
  subst hmp
  have hlast' : (mp.pts.map (fun h => (s.getD h default).index_1)).getLast? = some cp := hlast
  rw [List.getLast?_map] at hlast'
  obtain ⟨hb, hhb, hfb⟩ := Option.map_eq_some'.mp hlast'
  have hbd : mp.pts.getLastD 0 = hb := by rw [List.getLastD_eq_getLast?, hhb]; rfl
  have hblt : hb < s.length := hwf hb (List.mem_of_mem_getLast? hhb)
  have hcondval : (s1.getD (mp.pts.getLastD 0) default).index_1 = cp := by
    rw [hbd, hpres hb hblt]; exact hfb
  have hheadD : ordIds.headD 0 = ncp := by rw [List.headD_eq_head?_getD, hhead]; rfl
  have hchain1 : chain_connectivity s1 mp.pts = chain_connectivity s mp.pts :=
    chain_connectivity_congr s s1 mp.pts hwf hpres
  have htail : chain_connectivity s1 ordHs.tail = ordIds.tail := by
    unfold chain_connectivity
    rw [List.map_tail]
    exact congrArg List.tail hordc
  by_cases hnc : ncp = cp
  · have hcond : (s1.getD (mp.pts.getLastD 0) default).index_1 = ordIds.headD 0 := by
      rw [hcondval, hheadD, hnc]
    rw [if_pos hcond] at hs
    subst hs
    refine ⟨?_, ?_, ?_⟩
    · show chain_connectivity s1 (mp.pts ++ ordHs.tail) = _
      unfold chain_connectivity
      rw [List.map_append]
      exact congrArg₂ (· ++ ·) hchain1 htail
    · intro _
      rw [hbd, hpres hb hblt]
    · intro hc; exact absurd hnc hc
  · have hcond : ¬ (s1.getD (mp.pts.getLastD 0) default).index_1 = ordIds.headD 0 := by
      rw [hcondval, hheadD]; exact fun hc => hnc hc.symm
    rw [if_neg hcond] at hs
    subst hs
    refine ⟨?_, ?_, ?_⟩
    · show chain_connectivity (set_index_2 s1 (mp.pts.getLastD 0) (ordIds.headD 0))
        (mp.pts ++ ordHs.tail) = _
      rw [chain_connectivity_set_index_2]
      unfold chain_connectivity
      rw [List.map_append]
      exact congrArg₂ (· ++ ·) hchain1 htail
    · intro hc; exact absurd hc hnc
    · intro _
      rw [hbd, set_index_2_getD_self s1 hb (ordIds.headD 0) (by omega), hheadD]

theorem prepend_chain_shape {tracker : Tracker} {s s1 : Store} {mp : MergedPolyline}
    {cid : Nat} {ordHs ordIds : List Nat} {cp ncp : Nat} {t2 : Tracker} {s2 : Store}
    {mp2 : MergedPolyline} {p2 : Nat}
    (hwf : ∀ h ∈ mp.pts, h < s.length)
    (hlen : s.length ≤ s1.length)
    (hpres : ∀ h, h < s.length → s1.getD h default = s.getD h default)
    (hordc : chain_connectivity s1 ordHs = ordIds)
    (hlastord : ordIds.getLast? = some ncp)
    (hhd : (chain_connectivity s mp.pts).head? = some cp)
    (h : prepend_chain tracker s1 mp cid ordHs ordIds = (t2, s2, mp2, p2)) :
    chain_connectivity s2 mp2.pts = ordIds.dropLast ++ chain_connectivity s mp.pts ∧
    (ncp = cp → (s2.getD (mp.pts.headD 0) default).index_2 =
      (s.getD (mp.pts.headD 0) default).index_2) ∧
    (¬ ncp = cp → (s2.getD (mp.pts.headD 0) default).index_2 = some ncp) := by
  simp only [prepend_chain, Prod.mk.injEq] at h
  obtain ⟨_, hs, hmp, _⟩ := h
  subst hmp
  have hhd' : (mp.pts.map (fun h => (s.getD h default).index_1)).head? = some cp := hhd
  rw [List.head?_map] at hhd'
  obtain ⟨hb, hhb, hfb⟩ := Option.map_eq_some'.mp hhd'
  have hbd : mp.pts.headD 0 = hb := by rw [List.headD_eq_head?_getD, hhb]; rfl
  have hblt : hb < s.length := hwf hb (List.mem_of_mem_head? hhb)
  have hcondval : (s1.getD (mp.pts.headD 0) default).index_1 = cp := by
    rw [hbd, hpres hb hblt]; exact hfb
  have hlastD : ordIds.getLastD 0 = ncp := by
    rw [List.getLastD_eq_getLast?, hlastord]; rfl
  have hchain1 : chain_connectivity s1 mp.pts = chain_connectivity s mp.pts :=
    chain_connectivity_congr s s1 mp.pts hwf hpres
  have hdrop : chain_connectivity s1 ordHs.dropLast = ordIds.dropLast := by
    unfold chain_connectivity
    rw [List.map_dropLast]
    exact congrArg List.dropLast hordc
  by_cases hnc : ncp = cp
  · have hcond : (s1.getD (mp.pts.headD 0) default).index_1 = ordIds.getLastD 0 := by
      rw [hcondval, hlastD, hnc]
    rw [if_pos hcond] at hs
    subst hs
    refine ⟨?_, ?_, ?_⟩
    · show chain_connectivity s1 (ordHs.dropLast ++ mp.pts) = _
      unfold chain_connectivity
      rw [List.map_append]
      exact congrArg₂ (· ++ ·) hdrop hchain1
    · intro _
      rw [hbd, hpres hb hblt]
    · intro hc; exact absurd hnc hc
  · have hcond : ¬ (s1.getD (mp.pts.headD 0) default).index_1 = ordIds.getLastD 0 := by
      rw [hcondval, hlastD]; exact fun hc => hnc hc.symm
    rw [if_neg hcond] at hs
    subst hs
    refine ⟨?_, ?_, ?_⟩
    · show chain_connectivity (set_index_2 s1 (mp.pts.headD 0) (ordIds.getLastD 0))
        (ordHs.dropLast ++ mp.pts) = _
      rw [chain_connectivity_set_index_2]
      unfold chain_connectivity
      rw [List.map_append]
      exact congrArg₂ (· ++ ·) hdrop hchain1
    · intro hc; exact absurd hc hnc
    · intro _
      rw [hbd, set_index_2_getD_self s1 hb (ordIds.getLastD 0) (by omega), hlastD]

/-- Claim C7: a growth step that appends a chosen cell marks exactly that cell
consumed, appends the cell's point ids minus the shared junction point to the
chain (or prepends them, after reversal as the orientation requires), and
records a two-id merge pairing on the chain's boundary merge point exactly
when the chosen cell's connecting endpoint id differs from the chain's prior
boundary point id. -/
theorem add_next_cell_append_shape :
    ∀ (g : Grid) (d : MergePolylineData) (sc : SmoothFn) (tracker : Tracker) (s : Store)
      (mp : MergedPolyline) (cp : Nat) (t2 : Tracker) (s2 : Store) (mp2 : MergedPolyline)
      (p2 : Nat),
    (∀ h ∈ mp.pts, h < s.length) →
    add_next_cell g d sc tracker s mp cp = .ok (some (t2, s2, mp2, p2)) →
    ∃ cid ncp, t2 = tracker.set cid none ∧ mp2.cells = mp.cells ++ [cid] ∧
      ∃ ord, (ord = cell_point_ids g cid ∨ ord = (cell_point_ids g cid).reverse) ∧
      ((ord.head? = some ncp ∧ (chain_connectivity s mp.pts).getLast? = some cp ∧
        chain_connectivity s2 mp2.pts = chain_connectivity s mp.pts ++ ord.tail ∧
        (ncp = cp → (s2.getD (mp.pts.getLastD 0) default).index_2 =
          (s.getD (mp.pts.getLastD 0) default).index_2) ∧
        (¬ ncp = cp → (s2.getD (mp.pts.getLastD 0) default).index_2 = some ncp))
      ∨ (ord.getLast? = some ncp ∧ (chain_connectivity s mp.pts).head? = some cp ∧
        chain_connectivity s2 mp2.pts = ord.dropLast ++ chain_connectivity s mp.pts ∧
        (ncp = cp → (s2.getD (mp.pts.headD 0) default).index_2 =
          (s.getD (mp.pts.headD 0) default).index_2) ∧
        (¬ ncp = cp → (s2.getD (mp.pts.headD 0) default).index_2 = some ncp))) := by
  intro g d sc tracker s mp cp t2 s2 mp2 p2 hwf h
  obtain ⟨cid, ncp, x, htr, hlt, hA⟩ := add_next_cell_ok_some h
  obtain ⟨ht, hcells, _, _⟩ := append_new_cell_ok_basic hA
  refine ⟨cid, ncp, ht, hcells, ?_⟩
  have hlen1 : s.length ≤ ((alloc_merge_points s (cell_point_ids g cid)).1).length := by
    rw [alloc_merge_points_fst]; simp
  have hpres1 : ∀ hh, hh < s.length →
      ((alloc_merge_points s (cell_point_ids g cid)).1).getD hh default =
        s.getD hh default := by
    intro hh hhlt
    rw [alloc_merge_points_fst]
    exact store_getD_append _ _ hh hhlt
  have hordc1 : chain_connectivity (alloc_merge_points s (cell_point_ids g cid)).1
      (alloc_merge_points s (cell_point_ids g cid)).2 = cell_point_ids g cid :=
    chain_connectivity_alloc s (cell_point_ids g cid)
  have hordc2 : chain_connectivity (alloc_merge_points s (cell_point_ids g cid)).1
      ((alloc_merge_points s (cell_point_ids g cid)).2).reverse =
      (cell_point_ids g cid).reverse := by
    unfold chain_connectivity
    rw [List.map_reverse]
    exact congrArg List.reverse hordc1
  simp only [append_new_cell] at hA
  split_ifs at hA with h1 h2 h3 h4
  · simp only [Except.ok.injEq] at hA
    obtain ⟨hc, hi2a, hi2b⟩ := extend_chain_shape hwf hlen1 hpres1 hordc1 h1.1 h1.2.symm hA
    exact ⟨cell_point_ids g cid, Or.inl rfl, Or.inl ⟨h1.1, h1.2.symm, hc, hi2a, hi2b⟩⟩
  · simp only [Except.ok.injEq] at hA
    have hhead : ((cell_point_ids g cid).reverse).head? = some ncp := by
      rw [List.head?_reverse]; exact h2.1
    obtain ⟨hc, hi2a, hi2b⟩ := extend_chain_shape hwf hlen1 hpres1 hordc2 hhead h2.2.symm hA
    exact ⟨(cell_point_ids g cid).reverse, Or.inr rfl, Or.inl ⟨hhead, h2.2.symm, hc, hi2a, hi2b⟩⟩
  · simp only [Except.ok.injEq] at hA
    have hlast : ((cell_point_ids g cid).reverse).getLast? = some ncp := by
      rw [List.getLast?_reverse]; exact h3.1
    obtain ⟨hc, hi2a, hi2b⟩ := prepend_chain_shape hwf hlen1 hpres1 hordc2 hlast h3.2.symm hA
    exact ⟨(cell_point_ids g cid).reverse, Or.inr rfl, Or.inr ⟨hlast, h3.2.symm, hc, hi2a, hi2b⟩⟩
  · simp only [Except.ok.injEq] at hA
    obtain ⟨hc, hi2a, hi2b⟩ := prepend_chain_shape hwf hlen1 hpres1 hordc1 h4.1 h4.2.symm hA
    exact ⟨cell_point_ids g cid, Or.inl rfl, Or.inr ⟨h4.1, h4.2.symm, hc, hi2a, hi2b⟩⟩

/-- Witness for C7: growing the chain seeded from cell 0 of `sampleTwoLines`
at boundary point 1 appends cell 1 (connectivity `[1, 2]`) minus the shared
point 1, with no two-id pairing since the connecting endpoint equals the
boundary point. -/
theorem add_next_cell_append_shape_witness :
    ∃ cid ncp, ([none, none] : Tracker) = wTracker.set cid none ∧
      wChain2.cells = wChain.cells ++ [cid] ∧
      ∃ ord, (ord = cell_point_ids sampleTwoLines cid ∨
        ord = (cell_point_ids sampleTwoLines cid).reverse) ∧
      ((ord.head? = some ncp ∧ (chain_connectivity wStore wChain.pts).getLast? = some 1 ∧
        chain_connectivity wStore2 wChain2.pts =
          chain_connectivity wStore wChain.pts ++ ord.tail ∧
        (ncp = 1 → (wStore2.getD (wChain.pts.getLastD 0) default).index_2 =
          (wStore.getD (wChain.pts.getLastD 0) default).index_2) ∧
        (¬ ncp = 1 → (wStore2.getD (wChain.pts.getLastD 0) default).index_2 = some ncp))
      ∨ (ord.getLast? = some ncp ∧ (chain_connectivity wStore wChain.pts).head? = some 1 ∧
        chain_connectivity wStore2 wChain2.pts =
          ord.dropLast ++ chain_connectivity wStore wChain.pts ∧
        (ncp = 1 → (wStore2.getD (wChain.pts.headD 0) default).index_2 =
          (wStore.getD (wChain.pts.headD 0) default).index_2) ∧
        (¬ ncp = 1 → (wStore2.getD (wChain.pts.headD 0) default).index_2 = some ncp))) :=
  add_next_cell_append_shape sampleTwoLines ⟨List.replicate 3 (-1), []⟩ scTrue wTracker wStore
    wChain 1 [none, none] wStore2 wChain2 2 (by decide) (by decide)

/-! ### Claims C1 and C9: error taxonomy of a growth step -/

theorem get_indices_tangent_ref_error_cases {conn : List Nat} {point_id : Nat} {e : MergeError}
    (h : get_indices_tangent_ref conn point_id = .error e) :
    e = .pointNotInConnectivity ∨ e = .indexOutOfRange := by
  unfold get_indices_tangent_ref at h
  split_ifs at h <;>
    first
    | exact Except.noConfusion h
    | (injection h with h'; subst h'; first | exact Or.inl rfl | exact Or.inr rfl)

theorem get_indices_tangent_ref_no_ioor {conn : List Nat} {point_id : Nat}
    (hlen : 2 ≤ conn.length) :
    ¬ get_indices_tangent_ref conn point_id = .error .indexOutOfRange := by
  intro hc
  unfold get_indices_tangent_ref at hc
  split_ifs at hc <;>
    first
    | exact Except.noConfusion hc
    | exact MergeError.noConfusion (Except.error.inj hc)
    | simp_all

theorem set_tangents_error_cases {g : Grid} :
    ∀ {pcs : List (Nat × Nat)} {e : MergeError}, set_tangents g pcs = .error e →
    e = .pointNotInConnectivity ∨ e = .indexOutOfRange := by
  intro pcs
  induction pcs with
  | nil => intro e h; cases h
  | cons q rest ih =>
    intro e h
    obtain ⟨c, p⟩ := q
    simp only [set_tangents] at h
    cases hr : get_indices_tangent_ref (cell_point_ids g c) p with
    | error e' =>
      rw [hr] at h
      injection h with h'
      exact h' ▸ get_indices_tangent_ref_error_cases hr
    | ok t =>
      rw [hr] at h
      cases hrest : set_tangents g rest with
      | error e' =>
        rw [hrest] at h
        injection h with h'
        exact h' ▸ ih hrest
      | ok l' => rw [hrest] at h; cases h

theorem set_tangents_no_ioor {g : Grid} :
    ∀ {pcs : List (Nat × Nat)},
    (∀ q ∈ pcs, 2 ≤ (cell_point_ids g q.1).length) →
    ¬ set_tangents g pcs = .error .indexOutOfRange := by
  intro pcs
  induction pcs with
  | nil => intro _ h; cases h
  | cons q rest ih =>
    intro hq h
    obtain ⟨c, p⟩ := q
    simp only [set_tangents] at h
    cases hr : get_indices_tangent_ref (cell_point_ids g c) p with
    | error e' =>
      rw [hr] at h
      injection h with h'
      subst h'
      exact get_indices_tangent_ref_no_ioor (hq (c, p) (List.mem_cons_self _ _)) hr
    | ok t =>
      rw [hr] at h
      cases hrest : set_tangents g rest with
      | error e' =>
        rw [hrest] at h
        injection h with h'
        subst h'
        exact ih (fun q hm => hq q (List.mem_cons_of_mem _ hm)) hrest
      | ok l' => rw [hrest] at h; cases h

theorem append_new_cell_error_cases {g : Grid} {tracker : Tracker} {s : Store}
    {mp : MergedPolyline} {cp cid ncp : Nat} {e : MergeError}
    (h : append_new_cell g tracker s mp cp cid ncp = .error e) :
    e = .orientationMismatch := by
  simp only [append_new_cell] at h
  split_ifs at h <;>
    first
    | exact Except.noConfusion h
    | (injection h with h'; exact h'.symm)

theorem cell_point_ids_two {g : Grid} (hg : ∀ c ∈ g.cells, 2 ≤ c.pointIds.length)
    {c : Nat} (hc : c < g.cells.length) : 2 ≤ (cell_point_ids g c).length := by
  unfold cell_point_ids
  have : g.cells.getD c default = g.cells[c] := by
    simp [List.getD_eq_getElem?_getD, List.getElem?_eq_getElem hc]
  rw [this]
  exact hg _ (List.getElem_mem hc)

theorem add_next_cell_error_cases {g : Grid} {d : MergePolylineData} {sc : SmoothFn}
    {tracker : Tracker} {s : Store} {mp : MergedPolyline} {cp : Nat} {e : MergeError}
    (h : add_next_cell g d sc tracker s mp cp = .error e) :
    e = .pointNotInConnectivity ∨ e = .indexOutOfRange ∨ e = .orientationMismatch := by
  simp only [add_next_cell] at h
  cases hT : get_indices_tangent_ref (chain_connectivity s mp.pts) cp with
  | error e' =>
    simp only [hT] at h
    injection h with h'
    rcases h' ▸ get_indices_tangent_ref_error_cases hT with h1 | h1
    · exact Or.inl h1
    · exact Or.inr (Or.inl h1)
  | ok tangent =>
    simp only [hT] at h
    cases hW : set_tangents g (possible_next_cells g d mp.last_cell_id cp) with
    | error e' =>
      simp only [hW] at h
      injection h with h'
      rcases h' ▸ set_tangents_error_cases hW with h1 | h1
      · exact Or.inl h1
      · exact Or.inr (Or.inl h1)
    | ok withT =>
      simp only [hW] at h
      rcases hF : withT.filter (fun pc => sc tangent pc.tangent) with _ | ⟨c, _ | ⟨c2, rest⟩⟩ <;>
        simp only [hF] at h
      · cases h
      · cases htr : tracker.getD c.cell_id none with
        | none => simp only [htr] at h; cases h
        | some x =>
          simp only [htr] at h
          split_ifs at h
          cases hA : append_new_cell g tracker s mp cp c.cell_id c.point_id with
          | error e' =>
            simp only [hA] at h
            injection h with h'
            exact Or.inr (Or.inr (h' ▸ append_new_cell_error_cases hA))
          | ok r' => simp only [hA] at h; cases h
      · cases h

theorem add_next_cell_no_ioor {g : Grid} {d : MergePolylineData} {sc : SmoothFn}
    {tracker : Tracker} {s : Store} {mp : MergedPolyline} {cp : Nat}
    (hg : ∀ c ∈ g.cells, 2 ≤ c.pointIds.length) (hpts : 2 ≤ mp.pts.length) :
    ¬ add_next_cell g d sc tracker s mp cp = .error .indexOutOfRange := by
  intro h
  simp only [add_next_cell] at h
  cases hT : get_indices_tangent_ref (chain_connectivity s mp.pts) cp with
  | error e' =>
    simp only [hT] at h
    injection h with h'
    subst h'
    exact get_indices_tangent_ref_no_ioor (by simpa [chain_connectivity] using hpts) hT
  | ok tangent =>
    simp only [hT] at h
    cases hW : set_tangents g (possible_next_cells g d mp.last_cell_id cp) with
    | error e' =>
      simp only [hW] at h
      injection h with h'
      subst h'
      refine set_tangents_no_ioor ?_ hW
      intro q hm
      obtain ⟨c, p⟩ := q
      exact cell_point_ids_two hg (point_cells_lt (possible_next_cells_mem hm))
    | ok withT =>
      simp only [hW] at h
      rcases hF : withT.filter (fun pc => sc tangent pc.tangent) with _ | ⟨c, _ | ⟨c2, rest⟩⟩ <;>
        simp only [hF] at h
      · cases h
      · cases htr : tracker.getD c.cell_id none with
        | none => simp only [htr] at h; cases h
        | some x =>
          simp only [htr] at h
          split_ifs at h
          cases hA : append_new_cell g tracker s mp cp c.cell_id c.point_id with
          | error e' =>
            simp only [hA] at h
            injection h with h'
            subst h'
            exact absurd (append_new_cell_error_cases hA) (by intro hc; cases hc)
          | ok r' => simp only [hA] at h; cases h
      · cases h

/-! ### Claims C1 and C9: cell tracker bookkeeping -/

theorem findSome?_id_none : ∀ {t : Tracker}, t.findSome? id = none → t.filterMap id = [] := by
  intro t
  induction t with
  | nil => intro _; rfl
  | cons o rest ih =>
    intro h
    cases o with
    | some v => simp [List.findSome?_cons] at h
    | none =>
      simp only [List.findSome?_cons, id] at h
      simp only [List.filterMap_cons, id]
      exact ih h

theorem findSome?_id_some : ∀ {t : Tracker} {v : Nat}, t.findSome? id = some v →
    ∃ j, t.getD j none = some v := by
  intro t
  induction t with
  | nil => intro v h; cases h
  | cons o rest ih =>
    intro v h
    cases o with
    | some w =>
      simp only [List.findSome?_cons, id, Option.some.injEq] at h
      exact ⟨0, by simp [h]⟩
    | none =>
      simp only [List.findSome?_cons, id] at h
      obtain ⟨j, hj⟩ := ih h
      exact ⟨j + 1, hj⟩

theorem filterMap_id_set_none : ∀ (t : Tracker) (c x : Nat), t.getD c none = some x →
    (t.filterMap id).Perm (x :: (t.set c none).filterMap id) := by
  intro t
  induction t with
  | nil => intro c x h; cases h
  | cons o rest ih =>
    intro c x h
    cases c with
    | zero =>
      have ho : o = some x := h
      subst ho
      simp only [List.set_cons_zero, List.filterMap_cons, id]
      exact List.Perm.refl _
    | succ c =>
      have h' : rest.getD c none = some x := h
      cases o with
      | none =>
        simp only [List.set_cons_succ, List.filterMap_cons, id]
        exact ih c x h'
      | some y =>
        simp only [List.set_cons_succ, List.filterMap_cons, id]
        exact ((ih c x h').cons y).trans (List.Perm.swap x y _)

theorem tracker_inv_set_none {t : Tracker} {c : Nat}
    (hinv : ∀ j v, t.getD j none = some v → v = j) :
    ∀ j v, (t.set c none).getD j none = some v → v = j := by
  intro j v h
  rcases getD_set_cases t c j (none : Option Nat) none with heq | heq
  · rw [heq] at h; exact hinv j v h
  · rw [heq] at h; cases h

theorem add_next_cell_some_effects {g : Grid} {d : MergePolylineData} {sc : SmoothFn}
    {tracker : Tracker} {s : Store} {mp : MergedPolyline} {cp : Nat} {t2 : Tracker}
    {s2 : Store} {mp2 : MergedPolyline} {p2 : Nat}
    (hinv : ∀ j v, tracker.getD j none = some v → v = j)
    (h : add_next_cell g d sc tracker s mp cp = .ok (some (t2, s2, mp2, p2))) :
    ∃ cid, cid < g.cells.length ∧ t2 = tracker.set cid none ∧
      mp2.cells = mp.cells ++ [cid] ∧
      mp2.pts.length + 1 = mp.pts.length + (cell_point_ids g cid).length ∧
      (mp2.cells ++ t2.filterMap id).Perm (mp.cells ++ tracker.filterMap id) := by
  obtain ⟨cid, ncp, x, htr, hlt, hA⟩ := add_next_cell_ok_some h
  obtain ⟨ht, hcells, _, hpts⟩ := append_new_cell_ok_basic hA
  have hx : x = cid := hinv cid x htr
  subst hx
  have hperm := filterMap_id_set_none tracker x x htr
  refine ⟨x, hlt, ht, hcells, hpts, ?_⟩
  rw [hcells, ht, List.append_assoc, List.singleton_append]
  exact List.Perm.append_left mp.cells hperm.symm

/-! ### Claims C1 and C9: properties of the inner growth loop -/

theorem grow_loop_ok_effects (g : Grid) (d : MergePolylineData) (sc : SmoothFn) :
    ∀ (fuel : Nat) (tracker : Tracker) (s : Store) (mp : MergedPolyline) (np : Option Nat)
      (t2 : Tracker) (s2 : Store) (mp2 : MergedPolyline),
    (∀ j v, tracker.getD j none = some v → v = j) →
    grow_loop g d sc fuel tracker s mp np = .ok (t2, s2, mp2) →
    (∀ j v, t2.getD j none = some v → v = j) ∧ t2.length = tracker.length ∧
      (mp2.cells ++ t2.filterMap id).Perm (mp.cells ++ tracker.filterMap id) ∧
      mp.cells.length ≤ mp2.cells.length ∧
      (t2.filterMap id).length ≤ (tracker.filterMap id).length ∧
      ((∀ c ∈ g.cells, 2 ≤ c.pointIds.length) → mp.pts.length ≤ mp2.pts.length) := by
  intro fuel
  induction fuel with
  | zero =>
    intro tracker s mp np t2 s2 mp2 hinv h
    cases np with
    | none =>
      simp only [grow_loop, Except.ok.injEq, Prod.mk.injEq] at h
      obtain ⟨rfl, rfl, rfl⟩ := h
      exact ⟨hinv, rfl, List.Perm.refl _, le_refl _, le_refl _, fun _ => le_refl _⟩
    | some p => cases h
  | succ fuel ih =>
    intro tracker s mp np t2 s2 mp2 hinv h
    cases np with
    | none =>
      simp only [grow_loop, Except.ok.injEq, Prod.mk.injEq] at h
      obtain ⟨rfl, rfl, rfl⟩ := h
      exact ⟨hinv, rfl, List.Perm.refl _, le_refl _, le_refl _, fun _ => le_refl _⟩
    | some p =>
      simp only [grow_loop] at h
      cases hA : add_next_cell g d sc tracker s mp p with
      | error e => rw [hA] at h; cases h
      | ok res =>
        rw [hA] at h
        cases res with
        | none =>
          simp only [Except.ok.injEq, Prod.mk.injEq] at h
          obtain ⟨rfl, rfl, rfl⟩ := h
          exact ⟨hinv, rfl, List.Perm.refl _, le_refl _, le_refl _, fun _ => le_refl _⟩
        | some r =>
          obtain ⟨t', s', mp', p'⟩ := r
          obtain ⟨cid, hlt, ht', hcells, hpts, hperm⟩ := add_next_cell_some_effects hinv hA
          have hinv' : ∀ j v, t'.getD j none = some v → v = j := by
            rw [ht']; exact tracker_inv_set_none hinv
          obtain ⟨hi2, hl2, hp2, hc2, ha2, hg2⟩ := ih t' s' mp' (some p') t2 s2 mp2 hinv' h
          have hlen' : t'.length = tracker.length := by rw [ht']; simp
          have hlenperm := hperm.length_eq
          have hlenperm2 := hp2.length_eq
          refine ⟨hi2, hl2.trans hlen', hp2.trans hperm, ?_, ?_, ?_⟩
          · have : mp'.cells.length = mp.cells.length + 1 := by rw [hcells]; simp
            omega
          · simp only [List.length_append] at hlenperm hlenperm2
            have : mp'.cells.length = mp.cells.length + 1 := by rw [hcells]; simp
            omega
          · intro hg
            have h1 := hg2 hg
            have h2 : 2 ≤ (cell_point_ids g cid).length := cell_point_ids_two hg hlt
            omega

theorem grow_loop_no_fuel (g : Grid) (d : MergePolylineData) (sc : SmoothFn) :
    ∀ (fuel : Nat) (tracker : Tracker) (s : Store) (mp : MergedPolyline) (np : Option Nat),
    (∀ j v, tracker.getD j none = some v → v = j) →
    (tracker.filterMap id).length < fuel →
    ¬ grow_loop g d sc fuel tracker s mp np = .error .outOfFuel := by
  intro fuel
  induction fuel with
  | zero => intro tracker s mp np _ hfuel; omega
  | succ fuel ih =>
    intro tracker s mp np hinv hfuel h
    cases np with
    | none => cases h
    | some p =>
      simp only [grow_loop] at h
      cases hA : add_next_cell g d sc tracker s mp p with
      | error e =>
        rw [hA] at h
        injection h with h'
        subst h'
        rcases add_next_cell_error_cases hA with h1 | h1 | h1 <;> cases h1
      | ok res =>
        rw [hA] at h
        cases res with
        | none => cases h
        | some r =>
          obtain ⟨t', s', mp', p'⟩ := r
          obtain ⟨cid, hlt, ht', hcells, _, hperm⟩ := add_next_cell_some_effects hinv hA
          have hinv' : ∀ j v, t'.getD j none = some v → v = j := by
            rw [ht']; exact tracker_inv_set_none hinv
          have hlenperm := hperm.length_eq
          simp only [List.length_append] at hlenperm
          have hc : mp'.cells.length = mp.cells.length + 1 := by rw [hcells]; simp
          exact ih t' s' mp' (some p') hinv' (by omega) h

theorem grow_loop_no_ioor (g : Grid) (d : MergePolylineData) (sc : SmoothFn)
    (hg : ∀ c ∈ g.cells, 2 ≤ c.pointIds.length) :
    ∀ (fuel : Nat) (tracker : Tracker) (s : Store) (mp : MergedPolyline) (np : Option Nat),
    (∀ j v, tracker.getD j none = some v → v = j) →
    2 ≤ mp.pts.length →
    ¬ grow_loop g d sc fuel tracker s mp np = .error .indexOutOfRange := by
  intro fuel
  induction fuel with
  | zero =>
    intro tracker s mp np _ _ h
    cases np with
    | none => cases h
    | some p =>
      simp only [grow_loop] at h
      injection h with h'
      cases h'
  | succ fuel ih =>
    intro tracker s mp np hinv hpts h
    cases np with
    | none => cases h
    | some p =>
      simp only [grow_loop] at h
      cases hA : add_next_cell g d sc tracker s mp p with
      | error e =>
        rw [hA] at h
        injection h with h'
        subst h'
        exact add_next_cell_no_ioor hg hpts hA
      | ok res =>
        rw [hA] at h
        cases res with
        | none => cases h
        | some r =>
          obtain ⟨t', s', mp', p'⟩ := r
          obtain ⟨cid, hlt, ht', _, hpts', _⟩ := add_next_cell_some_effects hinv hA
          have hinv' : ∀ j v, t'.getD j none = some v → v = j := by
            rw [ht']; exact tracker_inv_set_none hinv
          have h2 : 2 ≤ (cell_point_ids g cid).length := cell_point_ids_two hg hlt
          exact ih t' s' mp' (some p') hinv' (by omega) h

/-! ### Claims C1 and C9: chain discovery -/

theorem find_next_some_effects {g : Grid} {d : MergePolylineData} {sc : SmoothFn}
    {fuel : Nat} {tracker : Tracker} {s : Store} {t3 : Tracker} {s3 : Store}
    {mp3 : MergedPolyline}
    (hinv : ∀ j v, tracker.getD j none = some v → v = j)
    (h : find_next_connected_polyline g d sc fuel tracker s = .ok (some (t3, s3, mp3))) :
    (∀ j v, t3.getD j none = some v → v = j) ∧ t3.length = tracker.length ∧
      (mp3.cells ++ t3.filterMap id).Perm (tracker.filterMap id) ∧
      1 ≤ mp3.cells.length ∧
      ((∀ c ∈ g.cells, 2 ≤ c.pointIds.length) → tracker.length = g.cells.length →
        2 ≤ mp3.pts.length) := by
  simp only [find_next_connected_polyline] at h
  cases hfs : tracker.findSome? id with
  | none => simp only [hfs] at h; exact Option.noConfusion (Except.ok.inj h)
  | some cid =>
    simp only [hfs] at h
    obtain ⟨j, hj⟩ := findSome?_id_some hfs
    have hjc : cid = j := hinv j cid hj
    subst hjc
    cases hh : (cell_point_ids g cid).head? with
    | none =>
      cases hl : (cell_point_ids g cid).getLast? <;> simp only [hh, hl] at h <;>
        exact Except.noConfusion h
    | some start_id =>
      cases hl : (cell_point_ids g cid).getLast? with
      | none => simp only [hh, hl] at h; exact Except.noConfusion h
      | some end_id =>
        simp only [hh, hl] at h
        have hinv1 : ∀ j v, (tracker.set cid none).getD j none = some v → v = j :=
          tracker_inv_set_none hinv
        have hperm0 := filterMap_id_set_none tracker cid cid hj
        cases hg1 : grow_loop g d sc fuel (tracker.set cid none)
            (alloc_merge_points s (cell_point_ids g cid)).1
            ⟨(alloc_merge_points s (cell_point_ids g cid)).2, some cid, [cid]⟩
            (some start_id) with
        | error e => simp only [hg1] at h; exact Except.noConfusion h
        | ok r2 =>
          obtain ⟨t2', s2', mp2'⟩ := r2
          simp only [hg1] at h
          obtain ⟨hi1, hl1, hp1, hc1, ha1, hpt1⟩ :=
            grow_loop_ok_effects g d sc fuel _ _ _ _ _ _ _ hinv1 hg1
          cases hg2 : grow_loop g d sc fuel t2' s2'
              { mp2' with last_cell_id := some cid } (some end_id) with
          | error e => simp only [hg2] at h; exact Except.noConfusion h
          | ok r3 =>
            obtain ⟨t3', s3', mp3'⟩ := r3
            simp only [hg2, Except.ok.injEq, Option.some.injEq, Prod.mk.injEq] at h
            obtain ⟨rfl, rfl, rfl⟩ := h
            obtain ⟨hi2, hl2, hp2, hc2, ha2, hpt2⟩ :=
              grow_loop_ok_effects g d sc fuel _ _ _ _ _ _ _ hi1 hg2
            have hp1' : (mp2'.cells ++ t2'.filterMap id).Perm
                ([cid] ++ (tracker.set cid none).filterMap id) := hp1
            have hp2' : (mp3'.cells ++ t3'.filterMap id).Perm
                (mp2'.cells ++ t2'.filterMap id) := hp2
            have hc1' : 1 ≤ mp2'.cells.length := hc1
            have hc2' : mp2'.cells.length ≤ mp3'.cells.length := hc2
            refine ⟨hi2, ?_, ?_, by omega, ?_⟩
            · rw [hl2, hl1]; simp
            · refine hp2'.trans (hp1'.trans ?_)
              rw [List.singleton_append]
              exact hperm0.symm
            · intro hg hlen
              have hcn : cid < tracker.length := getD_lt_length (by rw [hj]; simp)
              have h2c : 2 ≤ (cell_point_ids g cid).length :=
                cell_point_ids_two hg (by omega)
              have hpt1' : ((alloc_merge_points s (cell_point_ids g cid)).2).length ≤
                  mp2'.pts.length := hpt1 hg
              have hpt2' : mp2'.pts.length ≤ mp3'.pts.length := hpt2 hg
              have halen := alloc_merge_points_snd_length s (cell_point_ids g cid)
              omega

theorem find_next_none_avail {g : Grid} {d : MergePolylineData} {sc : SmoothFn}
    {fuel : Nat} {tracker : Tracker} {s : Store}
    (h : find_next_connected_polyline g d sc fuel tracker s = .ok none) :
    tracker.filterMap id = [] := by
  simp only [find_next_connected_polyline] at h
  cases hfs : tracker.findSome? id with
  | none => exact findSome?_id_none hfs
  | some cid =>
    simp only [hfs] at h
    exfalso
    cases hh : (cell_point_ids g cid).head? with
    | none =>
      cases hl : (cell_point_ids g cid).getLast? <;> simp only [hh, hl] at h <;>
        exact Except.noConfusion h
    | some start_id =>
      cases hl : (cell_point_ids g cid).getLast? with
      | none => simp only [hh, hl] at h; exact Except.noConfusion h
      | some end_id =>
        simp only [hh, hl] at h
        cases hg1 : grow_loop g d sc fuel (tracker.set cid none)
            (alloc_merge_points s (cell_point_ids g cid)).1
            ⟨(alloc_merge_points s (cell_point_ids g cid)).2, some cid, [cid]⟩
            (some start_id) with
        | error e => simp only [hg1] at h; exact Except.noConfusion h
        | ok r2 =>
          obtain ⟨t2', s2', mp2'⟩ := r2
          simp only [hg1] at h
          cases hg2 : grow_loop g d sc fuel t2' s2'
              { mp2' with last_cell_id := some cid } (some end_id) with
          | error e => simp only [hg2] at h; exact Except.noConfusion h
          | ok r3 =>
            obtain ⟨t3', s3', mp3'⟩ := r3
            simp only [hg2] at h
            exact Option.noConfusion (Except.ok.inj h)

theorem find_next_no_fuel {g : Grid} {d : MergePolylineData} {sc : SmoothFn}
    {fuel : Nat} {tracker : Tracker} {s : Store}
    (hinv : ∀ j v, tracker.getD j none = some v → v = j)
    (hf : (tracker.filterMap id).length ≤ fuel) :
    ¬ find_next_connected_polyline g d sc fuel tracker s = .error .outOfFuel := by
  intro h
  simp only [find_next_connected_polyline] at h
  cases hfs : tracker.findSome? id with
  | none => simp only [hfs] at h; exact Except.noConfusion h
  | some cid =>
    simp only [hfs] at h
    obtain ⟨j, hj⟩ := findSome?_id_some hfs
    have hjc : cid = j := hinv j cid hj
    subst hjc
    have hperm0 := filterMap_id_set_none tracker cid cid hj
    have hlen0 := hperm0.length_eq
    simp only [List.length_cons] at hlen0
    cases hh : (cell_point_ids g cid).head? with
    | none =>
      cases hl : (cell_point_ids g cid).getLast? <;> simp only [hh, hl] at h <;>
        (injection h with h'; cases h')
    | some start_id =>
      cases hl : (cell_point_ids g cid).getLast? with
      | none => simp only [hh, hl] at h; injection h with h'; cases h'
      | some end_id =>
        simp only [hh, hl] at h
        have hinv1 : ∀ j v, (tracker.set cid none).getD j none = some v → v = j :=
          tracker_inv_set_none hinv
        cases hg1 : grow_loop g d sc fuel (tracker.set cid none)
            (alloc_merge_points s (cell_point_ids g cid)).1
            ⟨(alloc_merge_points s (cell_point_ids g cid)).2, some cid, [cid]⟩
            (some start_id) with
        | error e =>
          simp only [hg1] at h
          injection h with h'
          subst h'
          exact grow_loop_no_fuel g d sc fuel _ _ _ _ hinv1 (by omega) hg1
        | ok r2 =>
          obtain ⟨t2', s2', mp2'⟩ := r2
          simp only [hg1] at h
          obtain ⟨hi1, hl1, hp1, hc1, ha1, hpt1⟩ :=
            grow_loop_ok_effects g d sc fuel _ _ _ _ _ _ _ hinv1 hg1
          cases hg2 : grow_loop g d sc fuel t2' s2'
              { mp2' with last_cell_id := some cid } (some end_id) with
          | error e =>
            simp only [hg2] at h
            injection h with h'
            subst h'
            exact grow_loop_no_fuel g d sc fuel _ _ _ _ hi1 (by omega) hg2
          | ok r3 =>
            obtain ⟨t3', s3', mp3'⟩ := r3
            simp only [hg2] at h
            exact Except.noConfusion h

theorem find_next_no_ioor {g : Grid} {d : MergePolylineData} {sc : SmoothFn}
    {fuel : Nat} {tracker : Tracker} {s : Store}
    (hg : ∀ c ∈ g.cells, 2 ≤ c.pointIds.length)
    (hinv : ∀ j v, tracker.getD j none = some v → v = j)
    (hlen : tracker.length = g.cells.length) :
    ¬ find_next_connected_polyline g d sc fuel tracker s = .error .indexOutOfRange := by
  intro h
  simp only [find_next_connected_polyline] at h
  cases hfs : tracker.findSome? id with
  | none => simp only [hfs] at h; exact Except.noConfusion h
  | some cid =>
    simp only [hfs] at h
    obtain ⟨j, hj⟩ := findSome?_id_some hfs
    have hjc : cid = j := hinv j cid hj
    subst hjc
    have hcn : cid < tracker.length := getD_lt_length (by rw [hj]; simp)
    have h2c : 2 ≤ (cell_point_ids g cid).length := cell_point_ids_two hg (by omega)
    have hconn : ¬ cell_point_ids g cid = [] := by
      intro hc; rw [hc] at h2c; simp at h2c
    cases hh : (cell_point_ids g cid).head? with
    | none => exact hconn (List.head?_eq_none_iff.mp hh)
    | some start_id =>
      cases hl : (cell_point_ids g cid).getLast? with
      | none => exact hconn (List.getLast?_eq_none_iff.mp hl)
      | some end_id =>
        simp only [hh, hl] at h
        have hinv1 : ∀ j v, (tracker.set cid none).getD j none = some v → v = j :=
          tracker_inv_set_none hinv
        have halen := alloc_merge_points_snd_length s (cell_point_ids g cid)
        cases hg1 : grow_loop g d sc fuel (tracker.set cid none)
            (alloc_merge_points s (cell_point_ids g cid)).1
            ⟨(alloc_merge_points s (cell_point_ids g cid)).2, some cid, [cid]⟩
            (some start_id) with
        | error e =>
          simp only [hg1] at h
          injection h with h'
          subst h'
          exact grow_loop_no_ioor g d sc hg fuel _ _ _ _ hinv1 (by simpa [halen] using h2c) hg1
        | ok r2 =>
          obtain ⟨t2', s2', mp2'⟩ := r2
          simp only [hg1] at h
          obtain ⟨hi1, hl1, hp1, hc1, ha1, hpt1⟩ :=
            grow_loop_ok_effects g d sc fuel _ _ _ _ _ _ _ hinv1 hg1
          have hpt1' : ((alloc_merge_points s (cell_point_ids g cid)).2).length ≤
              mp2'.pts.length := hpt1 hg
          cases hg2 : grow_loop g d sc fuel t2' s2'
              { mp2' with last_cell_id := some cid } (some end_id) with
          | error e =>
            simp only [hg2] at h
            injection h with h'
            subst h'
            refine grow_loop_no_ioor g d sc hg fuel _ _ _ _ hi1 ?_ hg2
            show 2 ≤ mp2'.pts.length
            omega
          | ok r3 =>
            obtain ⟨t3', s3', mp3'⟩ := r3
            simp only [hg2] at h
            exact Except.noConfusion h

/-! ### Claims C1 and C9: the outer discovery loop -/

theorem check_closed_cells (d : MergePolylineData) (s : Store) (mp : MergedPolyline) :
    ((check_closed d s mp).2).cells = mp.cells := by
  cases hh : mp.pts.head? with
  | none => simp only [check_closed, hh]
  | some h0 =>
    cases hl : mp.pts.getLast? with
    | none => simp only [check_closed, hh, hl]
    | some hlv =>
      simp only [check_closed, hh, hl]
      split_ifs <;> rfl

theorem merge_loop_ok_perm (g : Grid) (d : MergePolylineData) (sc : SmoothFn) :
    ∀ (fuel : Nat) (tracker : Tracker) (s : Store) (acc : List MergedPolyline)
      (s2 : Store) (chains : List MergedPolyline),
    (∀ j v, tracker.getD j none = some v → v = j) →
    merge_loop g d sc fuel tracker s acc = .ok (s2, chains) →
    ((chains.map MergedPolyline.cells).flatten).Perm
      ((acc.map MergedPolyline.cells).flatten ++ tracker.filterMap id) := by
  intro fuel
  induction fuel with
  | zero => intro tracker s acc s2 chains _ h; cases h
  | succ fuel ih =>
    intro tracker s acc s2 chains hinv h
    simp only [merge_loop] at h
    cases hF : find_next_connected_polyline g d sc fuel tracker s with
    | error e => rw [hF] at h; cases h
    | ok res =>
      rw [hF] at h
      cases res with
      | none =>
        simp only [Except.ok.injEq, Prod.mk.injEq] at h
        obtain ⟨rfl, rfl⟩ := h
        rw [find_next_none_avail hF, List.append_nil]
      | some r =>
        obtain ⟨t2, s2', mpr⟩ := r
        obtain ⟨hi, hl, hp, hc, _⟩ := find_next_some_effects hinv hF
        have hrec := ih t2 _ _ _ _ hi h
        rw [List.map_append, List.flatten_append] at hrec
        simp only [List.map_cons, List.map_nil, List.flatten_cons, List.flatten_nil,
          List.append_nil] at hrec
        rw [check_closed_cells] at hrec
        refine hrec.trans ?_
        rw [List.append_assoc]
        exact List.Perm.append_left _ hp

theorem merge_loop_no_fuel (g : Grid) (d : MergePolylineData) (sc : SmoothFn) :
    ∀ (fuel : Nat) (tracker : Tracker) (s : Store) (acc : List MergedPolyline),
    (∀ j v, tracker.getD j none = some v → v = j) →
    (tracker.filterMap id).length < fuel →
    ¬ merge_loop g d sc fuel tracker s acc = .error .outOfFuel := by
  intro fuel
  induction fuel with
  | zero => intro tracker s acc _ hf; omega
  | succ fuel ih =>
    intro tracker s acc hinv hf h
    simp only [merge_loop] at h
    cases hF : find_next_connected_polyline g d sc fuel tracker s with
    | error e =>
      rw [hF] at h
      injection h with h'
      subst h'
      exact find_next_no_fuel hinv (by omega) hF
    | ok res =>
      rw [hF] at h
      cases res with
      | none => exact Except.noConfusion h
      | some r =>
        obtain ⟨t2, s2', mpr⟩ := r
        obtain ⟨hi, hl, hp, hc, _⟩ := find_next_some_effects hinv hF
        have hplen := hp.length_eq
        simp only [List.length_append] at hplen
        exact ih t2 _ _ hi (by omega) h

theorem merge_loop_no_ioor (g : Grid) (d : MergePolylineData) (sc : SmoothFn)
    (hg : ∀ c ∈ g.cells, 2 ≤ c.pointIds.length) :
    ∀ (fuel : Nat) (tracker : Tracker) (s : Store) (acc : List MergedPolyline),
    (∀ j v, tracker.getD j none = some v → v = j) →
    tracker.length = g.cells.length →
    ¬ merge_loop g d sc fuel tracker s acc = .error .indexOutOfRange := by
  intro fuel
  induction fuel with
  | zero => intro tracker s acc _ _ h; injection h with h'; cases h'
  | succ fuel ih =>
    intro tracker s acc hinv hlen h
    simp only [merge_loop] at h
    cases hF : find_next_connected_polyline g d sc fuel tracker s with
    | error e =>
      rw [hF] at h
      injection h with h'
      subst h'
      exact find_next_no_ioor hg hinv hlen hF
    | ok res =>
      rw [hF] at h
      cases res with
      | none => exact Except.noConfusion h
      | some r =>
        obtain ⟨t2, s2', mpr⟩ := r
        obtain ⟨hi, hl, _, _, _⟩ := find_next_some_effects hinv hF
        exact ih t2 _ _ hi (hl.trans hlen) h

/-! ### Claims C1 and C9: top level -/

theorem check_cell_types_error_shape :
    ∀ {l : List Cell} {e : MergeError}, check_cell_types l = .error e →
    ∃ kk, e = .unsupportedCellType kk := by
  intro l
  induction l with
  | nil => intro e h; cases h
  | cons c rest ih =>
    intro e h
    simp only [check_cell_types] at h
    split_ifs at h with hk
    · exact ih h
    · injection h with h'
      exact ⟨c.kind, h'.symm⟩

theorem pairs_to_partner_list_error :
    ∀ {pairs : List (Nat × Nat)} {pl : List Int} {n : Nat} {e : MergeError},
    pairs_to_partner_list_loop pairs pl n = .error e → e = .ambiguousCluster := by
  intro pairs
  induction pairs with
  | nil => intro pl n e h; cases h
  | cons pr rest ih =>
    intro pl n e h
    obtain ⟨a, b⟩ := pr
    simp only [pairs_to_partner_list_loop] at h
    split_ifs at h with hab ha hb hne
    · exact ih h
    · exact ih h
    · exact ih h
    · exact ih h
    · injection h with h'; exact h'.symm

theorem initial_tracker_inv (n : Nat) :
    ∀ j v, (((List.range n).map some : Tracker)).getD j none = some v → v = j := by
  intro j v h
  rcases Nat.lt_or_ge j n with hj | hj
  · rw [List.getD_eq_getElem?_getD, List.getElem?_map, List.getElem?_range hj] at h
    simp only [Option.map_some', Option.getD_some, Option.some.injEq] at h
    exact h.symm
  · rw [List.getD_eq_default _ _ (by simpa using hj)] at h
    cases h

theorem initial_tracker_avail (n : Nat) :
    (((List.range n).map some : Tracker)).filterMap id = List.range n := by
  simp [List.filterMap_map]

/-- Claim C1: the discovery loop of `merge_polylines` terminates — cell count
plus one of fuel is never exhausted — and on every successful run the
concatenation of the chains' consumed-cell lists is a permutation of the input
cell ids: every cell is consumed into exactly one chain exactly once. -/
theorem merge_polylines_consumes_each_cell_once :
    ∀ (g : Grid) (pairs : List (Nat × Nat)) (sc : SmoothFn),
    (¬ merge_polylines g pairs sc (g.cells.length + 1) = .error .outOfFuel)
    ∧ (∀ fuel s chains, merge_polylines g pairs sc fuel = .ok (s, chains) →
        ((chains.map MergedPolyline.cells).flatten).Perm (List.range g.cells.length)) := by
  intro g pairs sc
  constructor
  · intro h
    unfold merge_polylines at h
    cases hchk : check_cell_types g.cells with
    | error e =>
      simp only [hchk] at h
      injection h with h'
      obtain ⟨kk, hik⟩ := check_cell_types_error_shape hchk
      rw [h'] at hik
      cases hik
    | ok u =>
      simp only [hchk] at h
      cases hp : pairs_to_partner_list pairs g.nPoints with
      | error e =>
        simp only [hp] at h
        injection h with h'
        have := pairs_to_partner_list_error hp
        rw [h'] at this
        cases this
      | ok pr =>
        obtain ⟨pl, np⟩ := pr
        simp only [hp] at h
        refine merge_loop_no_fuel g ⟨pl, point_partners_to_partner_indices pl np⟩ sc _ _ _ _
          (initial_tracker_inv g.cells.length) ?_ h
        rw [initial_tracker_avail]
        simp
  · intro fuel s chains h
    unfold merge_polylines at h
    cases hchk : check_cell_types g.cells with
    | error e => simp only [hchk] at h; exact Except.noConfusion h
    | ok u =>
      simp only [hchk] at h
      cases hp : pairs_to_partner_list pairs g.nPoints with
      | error e => simp only [hp] at h; exact Except.noConfusion h
      | ok pr =>
        obtain ⟨pl, np⟩ := pr
        simp only [hp] at h
        have hperm := merge_loop_ok_perm g ⟨pl, point_partners_to_partner_indices pl np⟩ sc
          _ _ _ [] s chains (initial_tracker_inv g.cells.length) h
        rw [initial_tracker_avail] at hperm
        simpa using hperm

/-- Witness for C1: on the two-disjoint-lines mesh, the run succeeds and the
two chains consume cells `0` and `1`, a permutation of `range 2`. -/
theorem merge_polylines_consumes_each_cell_once_witness :
    (([⟨[0, 1], some 0, [0]⟩, ⟨[2, 3], some 1, [1]⟩] : List MergedPolyline).map
      MergedPolyline.cells).flatten.Perm (List.range sampleDisjoint.cells.length) :=
  (merge_polylines_consumes_each_cell_once sampleDisjoint [] scFalse).2 3
    [⟨0, none, none⟩, ⟨1, none, none⟩, ⟨2, none, none⟩, ⟨3, none, none⟩]
    [⟨[0, 1], some 0, [0]⟩, ⟨[2, 3], some 1, [1]⟩] (by decide)

/-- Counterexample to C9 as stated: on a valid line/polyline mesh (a line and a
polyline sharing the polyline's interior point), candidate-tangent evaluation
at the junction raises the point-does-not-match-connectivity `ValueError`, a
fourth failure mode beyond the three the claim allows. -/
theorem merge_polylines_interior_junction_counterexample :
    merge_polylines sampleInteriorJunction [] scFalse 3 = .error .pointNotInConnectivity := by
  decide

/-- Claim C9, amended: with sufficient fuel, on a mesh whose cells all have at
least two points, `merge_polylines` either succeeds or aborts with one of
exactly four conditions: unsupported cell type, ambiguous cluster, orientation
mismatch, or the tangent point-not-in-connectivity error (which, contrary to
the original claim, is reachable for valid line/polyline inputs). -/
theorem merge_polylines_failure_modes :
    ∀ (g : Grid) (pairs : List (Nat × Nat)) (sc : SmoothFn) (fuel : Nat) (e : MergeError),
    (∀ c ∈ g.cells, 2 ≤ c.pointIds.length) →
    g.cells.length + 1 ≤ fuel →
    merge_polylines g pairs sc fuel = .error e →
    (∃ k, e = .unsupportedCellType k) ∨ e = .ambiguousCluster ∨
      e = .pointNotInConnectivity ∨ e = .orientationMismatch := by
  intro g pairs sc fuel e hg hf h
  unfold merge_polylines at h
  cases hchk : check_cell_types g.cells with
  | error e' =>
    simp only [hchk] at h
    injection h with h'
    exact Or.inl (h' ▸ check_cell_types_error_shape hchk)
  | ok u =>
    simp only [hchk] at h
    cases hp : pairs_to_partner_list pairs g.nPoints with
    | error e' =>
      simp only [hp] at h
      injection h with h'
      exact Or.inr (Or.inl (h' ▸ pairs_to_partner_list_error hp))
    | ok pr =>
      obtain ⟨pl, np⟩ := pr
      simp only [hp] at h
      have hnf := merge_loop_no_fuel g ⟨pl, point_partners_to_partner_indices pl np⟩ sc
        fuel ((List.range g.cells.length).map some) [] []
        (initial_tracker_inv g.cells.length)
        (by rw [initial_tracker_avail, List.length_range]; omega)
      have hni := merge_loop_no_ioor g ⟨pl, point_partners_to_partner_indices pl np⟩ sc hg
        fuel ((List.range g.cells.length).map some) [] []
        (initial_tracker_inv g.cells.length) (by simp)
      cases e with
      | outOfFuel => exact absurd h hnf
      | indexOutOfRange => exact absurd h hni
      | unsupportedCellType k => exact Or.inl ⟨k, rfl⟩
      | ambiguousCluster => exact Or.inr (Or.inl rfl)
      | pointNotInConnectivity => exact Or.inr (Or.inr (Or.inl rfl))
      | orientationMismatch => exact Or.inr (Or.inr (Or.inr rfl))

/-- Witness for the amended C9 at the concrete failing mesh: the error raised
is the point-not-in-connectivity one, within the allowed set. -/
theorem merge_polylines_failure_modes_witness :
    (∃ k, MergeError.pointNotInConnectivity = MergeError.unsupportedCellType k) ∨
      MergeError.pointNotInConnectivity = MergeError.ambiguousCluster ∨
      MergeError.pointNotInConnectivity = MergeError.pointNotInConnectivity ∨
      MergeError.pointNotInConnectivity = MergeError.orientationMismatch :=
  merge_polylines_failure_modes sampleInteriorJunction [] scFalse 3 .pointNotInConnectivity
    (by decide) (by decide) (by decide)

end PyVistaUtils
